import Mathlib

set_option maxRecDepth 1000000

/-!
Verification of the retainer-backend serverless handlers.

This file shallowly embeds the handlers of the repository
(`api/retainer/order-webhook.js`, `api/retainer/intake-upsert.js` in its two
revisions, `api/retainer/record.js`, `api/retainer/customer-create.js`) as
executable Lean functions, and proves the behavioural properties stated about
them.  JavaScript strings are `String`, absent (`undefined`) values are
`Option`, byte buffers are `List Nat` (each entry `< 256`), machine integers
appear as `Nat`/`Int` with explicit `% 2^32` where 32-bit wrap matters, and
fallible steps return `Option`/`Except`.  Network calls are passed in as
explicit oracle functions or modelled as state transitions on an explicit
remote-state record, following the platform semantics the spec describes
(lookup by e-mail, upsert of metafields, staged upload yielding a fresh
opaque file id).
-/

/-! ## JavaScript string primitives -/

/-- The whitespace characters recognised by the JS `\s` class that can occur
in the byte-compatible strings handled here (the non-ASCII members of `\s`
are not modelled). -/
def isJsWs (c : Char) : Bool :=
  c = ' ' ∨ c = '\t' ∨ c = '\n' ∨ c = '\r' ∨ c = '\x0b' ∨ c = '\x0c'

/-- ASCII lower-casing of one character (`toLowerCase` on the ASCII strings
handled here). -/
def charLower (c : Char) : Char :=
  if 65 ≤ c.toNat ∧ c.toNat ≤ 90 then Char.ofNat (c.toNat + 32) else c

/-- `s.toLowerCase()`. -/
def strLower (s : String) : String := String.mk (s.data.map charLower)

/-- `s.trim()` (strips the ASCII members of the JS whitespace class). -/
def jsTrim (s : String) : String :=
  String.mk (((s.data.dropWhile isJsWs).reverse.dropWhile isJsWs).reverse)

/-- `s.startsWith(pre)`. -/
def strStartsWith (s pre : String) : Bool := pre.data.isPrefixOf s.data

/-- `list.join(sep)`. -/
def strJoin (sep : String) : List String → String
  | [] => ""
  | [x] => x
  | x :: rest => x ++ sep ++ strJoin sep rest

/-- `a || b` on strings, with the empty string as the only falsy string
(mirrors JS truthiness; a `none` models `undefined`/`null`). -/
def jsOr (o : Option String) (d : String) : String :=
  match o with
  | some s => if s = "" then d else s
  | none => d

/-- `String(p.x || '')` for an optional payload field. -/
def jsStr (o : Option String) : String := o.getD ""

/-- `nonBlank` from `intake-upsert.js`: a string is non-blank when its trim
is non-empty; a missing value is blank.  (The source also treats non-string
non-null values as non-blank; the payload fields it is applied to are
strings.) -/
def nonBlank (o : Option String) : Bool :=
  match o with
  | some s => jsTrim s ≠ ""
  | none => false

/-- `isYMD` from the handlers: `/^\d{4}-\d{2}-\d{2}$/.test(s)`. -/
def isYMD (s : String) : Bool :=
  match s.data with
  | [y1, y2, y3, y4, h1, m1, m2, h2, d1, d2] =>
    y1.isDigit ∧ y2.isDigit ∧ y3.isDigit ∧ y4.isDigit ∧ h1 = '-' ∧
    m1.isDigit ∧ m2.isDigit ∧ h2 = '-' ∧ d1.isDigit ∧ d2.isDigit
  | _ => false

/-- `isEmail` from `intake-upsert.js`:
`/^[^\s@]+@[^\s@]+\.[^\s@]+$/.test(String(s||'').toLowerCase())`.
The regex is equivalent to: no whitespace, exactly one `@` which is not the
first character, and after the `@` some `.` that has at least one character
on each side. -/
def isEmail (s : String) : Bool :=
  let cs := (strLower s).data
  let localPart := cs.takeWhile (· ≠ '@')
  let domain := (cs.dropWhile (· ≠ '@')).drop 1
  cs.count '@' = 1 ∧ ¬ cs.any isJsWs ∧ localPart ≠ [] ∧
    ((domain.drop 1).dropLast).contains '.'

/-- `isPhoneLoose` from `intake-upsert.js`: keep digits and `+`, require at
least 10 characters. -/
def isPhoneLoose (s : String) : Bool :=
  (s.data.filter (fun c => c.isDigit ∨ c = '+')).length ≥ 10

/-! ## JavaScript numbers (exact decimal model)

`Number(...)` coercion is modelled exactly over decimal literals: a finite
value is `mant * 10 ^ p10`.  IEEE-754 rounding, hex/binary literals and
`Infinity` are not modelled (none of the behaviour verified here depends on
them); non-decimal input coerces to `nan` as in JS. -/

inductive JNum where
  | nan
  | fin (mant : Int) (p10 : Int)
deriving DecidableEq, Repr

/-- Decimal digits to a natural number. -/
def digitsToNat (ds : List Char) : Nat :=
  ds.foldl (fun acc c => acc * 10 + (c.toNat - '0'.toNat)) 0

/-- `Number(s)` for a string `s` (exact decimal semantics). -/
def jsParseNumber (s : String) : JNum :=
  let cs := s.data.dropWhile isJsWs
  let cs := (cs.reverse.dropWhile isJsWs).reverse
  match cs with
  | [] => .fin 0 0
  | _ =>
    let (neg, cs1) :=
      match cs with
      | '-' :: r => (true, r)
      | '+' :: r => (false, r)
      | _ => (false, cs)
    let intPart := cs1.takeWhile Char.isDigit
    let cs2 := cs1.dropWhile Char.isDigit
    let (fracPart, cs3) :=
      match cs2 with
      | '.' :: r => (r.takeWhile Char.isDigit, r.dropWhile Char.isDigit)
      | _ => ([], cs2)
    if intPart = [] ∧ fracPart = [] then .nan
    else
      let (expVal, cs4) :=
        match cs3 with
        | 'e' :: r | 'E' :: r =>
          let (eneg, r1) :=
            match r with
            | '-' :: r' => (true, r')
            | '+' :: r' => (false, r')
            | _ => (false, r)
          let eds := r1.takeWhile Char.isDigit
          if eds = [] then (none, cs3)
          else (some (if eneg then -(digitsToNat eds : Int) else (digitsToNat eds : Int)),
                r1.dropWhile Char.isDigit)
        | _ => (some 0, cs3)
      match expVal with
      | none => .nan
      | some e =>
        if cs4 ≠ [] then .nan
        else
          let m : Int := digitsToNat (intPart ++ fracPart)
          .fin (if neg then -m else m) (e - fracPart.length)

/-- `Number(x)` where `x` is `null` (→ 0) or a string. -/
def jsNumOfNullable (o : Option String) : JNum :=
  match o with
  | none => .fin 0 0
  | some s => jsParseNumber s

/-- `Number(x)` where `x` is `undefined` (→ NaN) or a string: the unary `+`
coercion used by `record.js`. -/
def jsNumOfUndef (o : Option String) : JNum :=
  match o with
  | none => .nan
  | some s => jsParseNumber s

/-- `Number.isInteger` on the exact model. -/
def JNum.isInteger : JNum → Bool
  | .nan => false
  | .fin m p => if 0 ≤ p then true else (10 : Int) ^ (-p).toNat ∣ m

/-- The integer value of an integral `JNum` (0 for `nan`/non-integral). -/
def JNum.toInt : JNum → Int
  | .nan => 0
  | .fin m p => if 0 ≤ p then m * 10 ^ p.toNat else m / 10 ^ (-p).toNat

/-! ## Bytes, SHA-256, HMAC, Base64

Executable model of `crypto.createHmac('sha256', secret).update(raw)
.digest('base64')` from `order-webhook.js`.  32-bit words are `Nat` reduced
mod `2 ^ 32`. -/

/-- Reduce to a 32-bit word. -/
def w32 (n : Nat) : Nat := n % 4294967296

/-- 32-bit right rotation. -/
def rotr32 (x n : Nat) : Nat := w32 ((x >>> n) ||| (x <<< (32 - n)))

/-- SHA-256 big Σ₀. -/
def bSig0 (x : Nat) : Nat := (rotr32 x 2) ^^^ (rotr32 x 13) ^^^ (rotr32 x 22)

/-- SHA-256 big Σ₁. -/
def bSig1 (x : Nat) : Nat := (rotr32 x 6) ^^^ (rotr32 x 11) ^^^ (rotr32 x 25)

/-- SHA-256 small σ₀. -/
def sSig0 (x : Nat) : Nat := (rotr32 x 7) ^^^ (rotr32 x 18) ^^^ (x >>> 3)

/-- SHA-256 small σ₁. -/
def sSig1 (x : Nat) : Nat := (rotr32 x 17) ^^^ (rotr32 x 19) ^^^ (x >>> 10)

/-- The 64 SHA-256 round constants (FIPS 180-4 §4.2.2), in rows of eight. -/
def sha256K : List Nat :=
  [0x428a2f98, 0x71374491, 0xb5c0fbcf, 0xe9b5dba5, 0x3956c25b, 0x59f111f1, 0x923f82a4, 0xab1c5ed5]
  ++ [0xd807aa98, 0x12835b01, 0x243185be, 0x550c7dc3, 0x72be5d74, 0x80deb1fe, 0x9bdc06a7, 0xc19bf174]
  ++ [0xe49b69c1, 0xefbe4786, 0x0fc19dc6, 0x240ca1cc, 0x2de92c6f, 0x4a7484aa, 0x5cb0a9dc, 0x76f988da]
  ++ [0x983e5152, 0xa831c66d, 0xb00327c8, 0xbf597fc7, 0xc6e00bf3, 0xd5a79147, 0x06ca6351, 0x14292967]
  ++ [0x27b70a85, 0x2e1b2138, 0x4d2c6dfc, 0x53380d13, 0x650a7354, 0x766a0abb, 0x81c2c92e, 0x92722c85]
  ++ [0xa2bfe8a1, 0xa81a664b, 0xc24b8b70, 0xc76c51a3, 0xd192e819, 0xd6990624, 0xf40e3585, 0x106aa070]
  ++ [0x19a4c116, 0x1e376c08, 0x2748774c, 0x34b0bcb5, 0x391c0cb3, 0x4ed8aa4a, 0x5b9cca4f, 0x682e6ff3]
  ++ [0x748f82ee, 0x78a5636f, 0x84c87814, 0x8cc70208, 0x90befffa, 0xa4506ceb, 0xbef9a3f7, 0xc67178f2]

/-- A 64-bit value as 8 big-endian bytes. -/
def be64 (n : Nat) : List Nat :=
  [(n >>> 56) % 256, (n >>> 48) % 256, (n >>> 40) % 256, (n >>> 32) % 256,
   (n >>> 24) % 256, (n >>> 16) % 256, (n >>> 8) % 256, n % 256]

/-- A 32-bit word as 4 big-endian bytes. -/
def be32 (n : Nat) : List Nat :=
  [(n >>> 24) % 256, (n >>> 16) % 256, (n >>> 8) % 256, n % 256]

/-- SHA-256 message padding. -/
def sha256Pad (msg : List Nat) : List Nat :=
  let ml := msg.length
  let k := (64 + 56 - ((ml + 1) % 64)) % 64
  msg ++ [0x80] ++ List.replicate k 0 ++ be64 (ml * 8)

/-- Group bytes into big-endian 32-bit words. -/
def bytesToWords : List Nat → List Nat
  | b0 :: b1 :: b2 :: b3 :: rest => (((b0 * 256 + b1) * 256 + b2) * 256 + b3) :: bytesToWords rest
  | _ => []

/-- Group a word list into 16-word blocks. -/
def wordsToBlocks : List Nat → List (List Nat)
  | w0 :: w1 :: w2 :: w3 :: w4 :: w5 :: w6 :: w7 :: w8 :: w9 :: w10 :: w11 :: w12 :: w13 :: w14 :: w15 :: rest =>
    [w0, w1, w2, w3, w4, w5, w6, w7, w8, w9, w10, w11, w12, w13, w14, w15] :: wordsToBlocks rest
  | _ => []

/-- Extend a 16-word block schedule by `n` further words. -/
def extendW (w : List Nat) : Nat → List Nat
  | 0 => w
  | n + 1 =>
    let prev := extendW w n
    let i := prev.length
    prev ++ [w32 (sSig1 (prev.getD (i - 2) 0) + prev.getD (i - 7) 0 +
                  sSig0 (prev.getD (i - 15) 0) + prev.getD (i - 16) 0)]

/-- The 8-word SHA-256 internal state. -/
structure HS where
  a : Nat
  b : Nat
  c : Nat
  d : Nat
  e : Nat
  f : Nat
  g : Nat
  h : Nat
deriving DecidableEq, Repr

/-- SHA-256 choice function. -/
def chF (x y z : Nat) : Nat := (x &&& y) ^^^ ((x ^^^ 4294967295) &&& z)

/-- SHA-256 majority function. -/
def majF (x y z : Nat) : Nat := (x &&& y) ^^^ (x &&& z) ^^^ (y &&& z)

/-- One SHA-256 compression round. -/
def round1 (s : HS) (kw : Nat × Nat) : HS :=
  let t1 := w32 (s.h + bSig1 s.e + chF s.e s.f s.g + kw.1 + kw.2)
  let t2 := w32 (bSig0 s.a + majF s.a s.b s.c)
  ⟨w32 (t1 + t2), s.a, s.b, s.c, w32 (s.d + t1), s.e, s.f, s.g⟩

/-- Componentwise 32-bit addition of states. -/
def addHS (x y : HS) : HS :=
  ⟨w32 (x.a + y.a), w32 (x.b + y.b), w32 (x.c + y.c), w32 (x.d + y.d),
   w32 (x.e + y.e), w32 (x.f + y.f), w32 (x.g + y.g), w32 (x.h + y.h)⟩

/-- SHA-256 initial state. -/
def sha256H0 : HS :=
  ⟨0x6a09e667, 0xbb67ae85, 0x3c6ef372, 0xa54ff53a, 0x510e527f, 0x9b05688c, 0x1f83d9ab, 0x5be0cd19⟩

/-- Compress one 16-word block into the running state. -/
def compressBlock (h0 : HS) (block : List Nat) : HS :=
  let w := extendW block 48
  let s := (sha256K.zip w).foldl round1 h0
  addHS h0 s

/-- SHA-256 of a byte list. -/
def sha256 (msg : List Nat) : List Nat :=
  let blocks := wordsToBlocks (bytesToWords (sha256Pad msg))
  let h := blocks.foldl compressBlock sha256H0
  be32 h.a ++ be32 h.b ++ be32 h.c ++ be32 h.d ++ be32 h.e ++ be32 h.f ++ be32 h.g ++ be32 h.h

/-- HMAC-SHA256 of a message under a key (both byte lists). -/
def hmacSha256 (key msg : List Nat) : List Nat :=
  let k0 := if key.length > 64 then sha256 key else key
  let kp := k0 ++ List.replicate (64 - k0.length) 0
  sha256 ((kp.map (fun b => b ^^^ 0x5c)) ++ sha256 ((kp.map (fun b => b ^^^ 0x36)) ++ msg))

/-- The standard Base64 alphabet. -/
def b64Alphabet : List Char :=
  "ABCDEFGHIJKLMNOPQRSTUVWXYZabcdefghijklmnopqrstuvwxyz0123456789+/".data

/-- The Base64 character for a 6-bit value. -/
def b64c (n : Nat) : Char := b64Alphabet.getD n 'A'

/-- Base64 encoding of a byte list. -/
def base64Encode : List Nat → String
  | [] => ""
  | [b0] => String.mk [b64c (b0 >>> 2), b64c ((b0 % 4) <<< 4), '=', '=']
  | [b0, b1] => String.mk [b64c (b0 >>> 2), b64c (((b0 % 4) <<< 4) ||| (b1 >>> 4)), b64c ((b1 % 16) <<< 2), '=']
  | b0 :: b1 :: b2 :: rest =>
    String.mk [b64c (b0 >>> 2), b64c (((b0 % 4) <<< 4) ||| (b1 >>> 4)),
               b64c (((b1 % 16) <<< 2) ||| (b2 >>> 6)), b64c (b2 % 64)] ++ base64Encode rest

/-- The bytes of an ASCII string (models the UTF-8 encoding used by
`Buffer.from` for the ASCII strings that occur here). -/
def strBytes (s : String) : List Nat := s.data.map Char.toNat

/-- The string decoded from a byte list (`buf.toString('utf8')`, modelled
for ASCII bytes). -/
def asciiDecode (bs : List Nat) : String := String.mk (bs.map Char.ofNat)

/-- `crypto.createHmac('sha256', secret).update(raw).digest('base64')`. -/
def hmacBase64 (secret raw : List Nat) : String := base64Encode (hmacSha256 secret raw)

/-! ## JSON

Executable model of `JSON.parse` / `JSON.stringify` for the uses the
handlers make of them.  Numbers are kept exact (`mant * 10 ^ p10`); string
escapes cover the JSON escape set. -/

inductive Json where
  | null
  | bool (b : Bool)
  | num (mant : Int) (p10 : Int)
  | str (s : String)
  | arr (elems : List Json)
  | obj (fields : List (String × Json))

/-- Skip JSON whitespace. -/
def skipWs : List Char → List Char
  | c :: rest => if c = ' ' ∨ c = '\t' ∨ c = '\n' ∨ c = '\r' then skipWs rest else c :: rest
  | [] => []

/-- The value of a hexadecimal digit, if any. -/
def hexVal (c : Char) : Option Nat :=
  if c.isDigit then some (c.toNat - '0'.toNat)
  else if 'a' ≤ c ∧ c ≤ 'f' then some (c.toNat - 'a'.toNat + 10)
  else if 'A' ≤ c ∧ c ≤ 'F' then some (c.toNat - 'A'.toNat + 10)
  else none

/-- Parse the body of a JSON string (after the opening quote), returning the
decoded characters and the rest of the input. -/
def parseStrChars : List Char → Option (List Char × List Char)
  | [] => none
  | '"' :: rest => some ([], rest)
  | '\\' :: esc =>
    match esc with
    | '"' :: rest => (parseStrChars rest).map (fun p => ('"' :: p.1, p.2))
    | '\\' :: rest => (parseStrChars rest).map (fun p => ('\\' :: p.1, p.2))
    | '/' :: rest => (parseStrChars rest).map (fun p => ('/' :: p.1, p.2))
    | 'b' :: rest => (parseStrChars rest).map (fun p => ('\x08' :: p.1, p.2))
    | 'f' :: rest => (parseStrChars rest).map (fun p => ('\x0c' :: p.1, p.2))
    | 'n' :: rest => (parseStrChars rest).map (fun p => ('\n' :: p.1, p.2))
    | 'r' :: rest => (parseStrChars rest).map (fun p => ('\r' :: p.1, p.2))
    | 't' :: rest => (parseStrChars rest).map (fun p => ('\t' :: p.1, p.2))
    | 'u' :: h1 :: h2 :: h3 :: h4 :: rest =>
      match hexVal h1, hexVal h2, hexVal h3, hexVal h4 with
      | some v1, some v2, some v3, some v4 =>
        (parseStrChars rest).map
          (fun p => (Char.ofNat (((v1 * 16 + v2) * 16 + v3) * 16 + v4) :: p.1, p.2))
      | _, _, _, _ => none
    | _ => none
  | c :: rest =>
    if c.toNat < 0x20 then none
    else (parseStrChars rest).map (fun p => (c :: p.1, p.2))

/-- Parse a JSON number (after any sign handling done by the caller this
still handles the full grammar); lenient about trailing garbage, which the
surrounding context then rejects. -/
def parseJsonNum (cs : List Char) : Option (Json × List Char) :=
  let (neg, cs1) :=
    match cs with
    | '-' :: r => (true, r)
    | _ => (false, cs)
  let intPart := cs1.takeWhile Char.isDigit
  let cs2 := cs1.dropWhile Char.isDigit
  if intPart = [] then none
  else
    let (fracPart, cs3) :=
      match cs2 with
      | '.' :: r =>
        let f := r.takeWhile Char.isDigit
        if f = [] then (([] : List Char), cs2) else (f, r.dropWhile Char.isDigit)
      | _ => ([], cs2)
    let (expVal, cs4) :=
      match cs3 with
      | 'e' :: r | 'E' :: r =>
        let (eneg, r1) :=
          match r with
          | '-' :: r' => (true, r')
          | '+' :: r' => (false, r')
          | _ => (false, r)
        let eds := r1.takeWhile Char.isDigit
        if eds = [] then ((0 : Int), cs3)
        else ((if eneg then -(digitsToNat eds : Int) else (digitsToNat eds : Int)),
              r1.dropWhile Char.isDigit)
      | _ => ((0 : Int), cs3)
    let m : Int := digitsToNat (intPart ++ fracPart)
    some (.num (if neg then -m else m) (expVal - fracPart.length), cs4)

mutual

/-- Parse one JSON value. -/
def parseJsonVal : Nat → List Char → Option (Json × List Char)
  | 0, _ => none
  | fuel + 1, cs =>
    match skipWs cs with
    | 'n' :: 'u' :: 'l' :: 'l' :: rest => some (.null, rest)
    | 't' :: 'r' :: 'u' :: 'e' :: rest => some (.bool true, rest)
    | 'f' :: 'a' :: 'l' :: 's' :: 'e' :: rest => some (.bool false, rest)
    | '"' :: rest => (parseStrChars rest).map (fun p => (.str (String.mk p.1), p.2))
    | '[' :: rest => parseJsonArr fuel (skipWs rest)
    | '\x7b' :: rest => parseJsonObj fuel (skipWs rest)
    | cs1 => parseJsonNum cs1

/-- Parse an array body (input starts after `[`, whitespace skipped). -/
def parseJsonArr : Nat → List Char → Option (Json × List Char)
  | 0, _ => none
  | fuel + 1, cs =>
    match cs with
    | ']' :: rest => some (.arr [], rest)
    | _ =>
      match parseJsonVal fuel cs with
      | none => none
      | some (j, r1) => parseJsonArrRest fuel [j] r1

/-- Parse the continuation of an array after at least one element. -/
def parseJsonArrRest : Nat → List Json → List Char → Option (Json × List Char)
  | 0, _, _ => none
  | fuel + 1, acc, cs =>
    match skipWs cs with
    | ',' :: rest =>
      match parseJsonVal fuel rest with
      | none => none
      | some (j, r1) => parseJsonArrRest fuel (acc ++ [j]) r1
    | ']' :: rest => some (.arr acc, rest)
    | _ => none

/-- Parse an object body (input starts after the opening brace, whitespace
skipped). -/
def parseJsonObj : Nat → List Char → Option (Json × List Char)
  | 0, _ => none
  | fuel + 1, cs =>
    match cs with
    | '\x7d' :: rest => some (.obj [], rest)
    | _ =>
      match parseJsonMember fuel cs with
      | none => none
      | some (kv, r1) => parseJsonObjRest fuel [kv] r1

/-- Parse one `"key": value` member. -/
def parseJsonMember : Nat → List Char → Option ((String × Json) × List Char)
  | 0, _ => none
  | fuel + 1, cs =>
    match skipWs cs with
    | '"' :: rest =>
      match parseStrChars rest with
      | none => none
      | some (kcs, r1) =>
        match skipWs r1 with
        | ':' :: r2 =>
          match parseJsonVal fuel r2 with
          | none => none
          | some (j, r3) => some ((String.mk kcs, j), r3)
        | _ => none
    | _ => none

/-- Parse the continuation of an object after at least one member. -/
def parseJsonObjRest : Nat → List (String × Json) → List Char → Option (Json × List Char)
  | 0, _, _ => none
  | fuel + 1, acc, cs =>
    match skipWs cs with
    | ',' :: rest =>
      match parseJsonMember fuel rest with
      | none => none
      | some (kv, r1) => parseJsonObjRest fuel (acc ++ [kv]) r1
    | '\x7d' :: rest => some (.obj acc, rest)
    | _ => none

end

/-- `JSON.parse`: `none` models a thrown `SyntaxError`. -/
def Json.parse (s : String) : Option Json :=
  match parseJsonVal (2 * s.length + 4) s.data with
  | some (j, rest) => if skipWs rest = [] then some j else none
  | none => none

/-- Escape one character for a JSON string literal. -/
def jsonEscapeChar (c : Char) : List Char :=
  if c = '"' then ['\\', '"']
  else if c = '\\' then ['\\', '\\']
  else if c = '\n' then ['\\', 'n']
  else if c = '\r' then ['\\', 'r']
  else if c = '\t' then ['\\', 't']
  else if c = '\x08' then ['\\', 'b']
  else if c = '\x0c' then ['\\', 'f']
  else if c.toNat < 0x20 then
    ['\\', 'u', '0', '0', b64Alphabet.getD 52 '0', b64Alphabet.getD 52 '0']
  else [c]

/-- Quote a string as a JSON string literal. -/
def jsonQuote (s : String) : String :=
  "\"" ++ String.mk (s.data.foldr (fun c acc => jsonEscapeChar c ++ acc) []) ++ "\""

/-- Render an exact decimal as JS does for the values occurring here. -/
def renderNum (m : Int) (p : Int) : String :=
  if 0 ≤ p then toString (m * 10 ^ p.toNat)
  else
    let d : Int := 10 ^ (-p).toNat
    let q := m / d
    let r := (if m < 0 then -m else m) % d
    if r = 0 then toString q
    else
      let frac := toString (r + d)   -- "1" ++ zero-padded remainder digits
      let fracDigits := (frac.data.drop 1).reverse.dropWhile (· = '0') |>.reverse
      (if m < 0 ∧ q = 0 then "-" else "") ++ toString q ++ "." ++ String.mk fracDigits

mutual

/-- `JSON.stringify` with explicit fuel (always called with fuel at least
the nesting depth, so the fallback is unreachable). -/
def serializeJson : Nat → Json → String
  | 0, _ => ""
  | _ + 1, .null => "null"
  | _ + 1, .bool true => "true"
  | _ + 1, .bool false => "false"
  | _ + 1, .num m p => renderNum m p
  | _ + 1, .str s => jsonQuote s
  | fuel + 1, .arr l => "[" ++ serializeJsonList fuel l ++ "]"
  | fuel + 1, .obj l => "\x7b" ++ serializeJsonFields fuel l ++ "\x7d"

/-- Serialize array elements, comma-separated. -/
def serializeJsonList : Nat → List Json → String
  | _, [] => ""
  | fuel, [j] => serializeJson fuel j
  | fuel, j :: rest => serializeJson fuel j ++ "," ++ serializeJsonList fuel rest

/-- Serialize object members, comma-separated. -/
def serializeJsonFields : Nat → List (String × Json) → String
  | _, [] => ""
  | fuel, [(k, v)] => jsonQuote k ++ ":" ++ serializeJson fuel v
  | fuel, (k, v) :: rest => jsonQuote k ++ ":" ++ serializeJson fuel v ++ "," ++ serializeJsonFields fuel rest

end

/-- `JSON.stringify` of a string list (used for the `list.*` metafield
values built from the pretty lists). -/
def stringifyStrList (l : List String) : String :=
  "[" ++ strJoin "," (l.map jsonQuote) ++ "]"

/-- JS truthiness of a parsed JSON value. -/
def jsTruthy : Json → Bool
  | .null => false
  | .bool b => b
  | .num m _ => m ≠ 0
  | .str s => s ≠ ""
  | .arr _ => true
  | .obj _ => true

/-- Field lookup on a parsed JSON object (`undefined` otherwise). -/
def jsonField (j : Json) (k : String) : Option Json :=
  match j with
  | .obj l => (l.reverse.find? (fun kv => kv.1 = k)).map (·.2)
  | _ => none

/-- The string the handlers obtain from a JSON field used in string position.
Falsy values (`undefined`, `null`, `false`, `0`, `""`) are modelled as `""`,
matching their behaviour in the `||` chains, the `filter(Boolean)` pipelines
and the truthiness guards they feed; structured values are not rendered
(the webhook payload carries strings in these positions). -/
def jsonFieldStr (j : Json) (k : String) : String :=
  match jsonField j k with
  | some (.str s) => s
  | some (.num m p) => if m = 0 then "" else renderNum m p
  | some (.bool true) => "true"
  | _ => ""

/-! ## Metafields and the order-webhook pushers (`order-webhook.js`) -/

/-- One element of a `metafieldsSet` batch (`MetafieldsSetInput`). -/
structure MF where
  ns : String
  ownerId : String
  key : String
  type : String
  value : String
deriving DecidableEq, Repr

/-- `gid://shopify/Order/<id>`. -/
def orderGid (n : Nat) : String := "gid://shopify/Order/" ++ toString n

/-- `gid://shopify/Customer/<id>`. -/
def customerGidStr (n : Nat) : String := "gid://shopify/Customer/" ++ toString n

/-- `pushSL`: single-line text, pushed only when the trimmed value is
non-empty. -/
def pushSL (arr : List MF) (ownerId key val : String) : List MF :=
  let v := jsTrim val
  if v ≠ "" then arr ++ [⟨"retainer", ownerId, key, "single_line_text_field", v⟩] else arr

/-- `pushML`: multi-line text, pushed only when the value is non-empty. -/
def pushML (arr : List MF) (ownerId key val : String) : List MF :=
  if val ≠ "" then arr ++ [⟨"retainer", ownerId, key, "multi_line_text_field", val⟩] else arr

/-- `pushDT`: date, pushed only when the trimmed value matches
`YYYY-MM-DD`. -/
def pushDT (arr : List MF) (ownerId key val : String) : List MF :=
  let v := jsTrim val
  if isYMD v then arr ++ [⟨"retainer", ownerId, key, "date", v⟩] else arr

/-- `pushBL`: boolean.  The source guard `tf===true || tf===false` is
discharged by the `Bool` type of the argument (the handler always passes a
boolean), so the entry is always pushed. -/
def pushBL (arr : List MF) (ownerId key : String) (tf : Bool) : List MF :=
  arr ++ [⟨"retainer", ownerId, key, "boolean", if tf then "true" else "false"⟩]

/-- `pushNI`: integer, pushed only when `Number(n)` is an integer (`n` is the
nullable property string the handler passes).  `String(v)` of an integral JS
number is its decimal rendering (the exponential form JS uses beyond `1e21`
is outside the exact model). -/
def pushNI (arr : List MF) (ownerId key : String) (n : Option String) : List MF :=
  let v := jsNumOfNullable n
  if v.isInteger then
    arr ++ [⟨"retainer", ownerId, key, "number_integer", toString v.toInt⟩]
  else arr

/-- The string `pushJSON` builds: the value itself when it is a string,
`JSON.stringify(val ?? [])` otherwise.  `fuel` bounds the serializer
recursion; callers pass a bound dominating the nesting depth. -/
def pushJSONValue (val : Json) (fuel : Nat) : String :=
  match val with
  | .str s => s
  | .null => "[]"
  | v => serializeJson fuel v

/-- `pushJSON`: pushed only when the built string parses as JSON
(`try { JSON.parse(s); push } catch {}`). -/
def pushJSON (arr : List MF) (ownerId key : String) (val : Json) (fuel : Nat) : List MF :=
  if (Json.parse (pushJSONValue val fuel)).isSome then
    arr ++ [⟨"retainer", ownerId, key, "json", pushJSONValue val fuel⟩]
  else arr

/-- `JSON.stringify({ file_id: gid })`. -/
def fileRefValue (g : String) : String := "\x7b\"file_id\":" ++ jsonQuote g ++ "\x7d"

/-- `pushFILE`: file reference, pushed only for a truthy (non-null,
non-empty) file id. -/
def pushFILE (arr : List MF) (ownerId key : String) (gid : Option String) : List MF :=
  match gid with
  | none => arr
  | some g => if g = "" then arr else arr ++ [⟨"retainer", ownerId, key, "file_reference", fileRefValue g⟩]

/-- Well-formedness of a metafield entry for its declared type: non-empty
text, a `YYYY-MM-DD` date, an exact boolean literal, the decimal rendering
of an integer, a string that parses as JSON, or a file reference built from
a truthy file id; any other type is malformed. -/
def wfMF (m : MF) : Prop :=
  match m.type with
  | "single_line_text_field" => m.value ≠ ""
  | "multi_line_text_field" => m.value ≠ ""
  | "date" => isYMD m.value = true
  | "boolean" => m.value = "true" ∨ m.value = "false"
  | "number_integer" => ∃ i : Int, m.value = toString i
  | "json" => (Json.parse m.value).isSome = true
  | "file_reference" => ∃ g, g ≠ "" ∧ m.value = fileRefValue g
  | _ => False

/-! ## The order payload and reconciliation (`order-webhook.js` lines 66-117)

Note-attribute and line-item property values are modelled as the strings the
Shopify webhook delivers in these positions; a `null` value is modelled as
`""`, matching its falsiness everywhere the handler reads it. -/

/-- A named value: one note attribute or one line-item property. -/
structure OProp where
  name : String
  value : String
deriving DecidableEq, Repr

/-- A line item, reduced to the `properties` the handler reads. -/
structure OLineItem where
  properties : List OProp
deriving DecidableEq, Repr

/-- The order payload fields the webhook handler reads. -/
structure Order where
  id : Nat
  note_attributes : List OProp
  line_items : List OLineItem
  customer : Option Nat
  email : String
deriving DecidableEq, Repr

/-- The empty key/value map. -/
def emptyMap : String → Option String := fun _ => none

/-- JS object assignment `m[k] = v` (later assignments win). -/
def mapSet (m : String → Option String) (k v : String) : String → Option String :=
  fun q => if q = k then some v else m q

/-- `pullAttrs`: order-level note attributes with truthy names, as a flat
map. -/
def pullAttrs (o : Order) : String → Option String :=
  o.note_attributes.foldl
    (fun m na => if na.name ≠ "" then mapSet m na.name na.value else m) emptyMap

/-- `pullProps`: per-line-item properties with truthy names and non-blank
values, as a flat map. -/
def pullProps (o : Order) : String → Option String :=
  o.line_items.foldl
    (fun m li =>
      li.properties.foldl
        (fun m p => if p.name ≠ "" ∧ jsTrim p.value ≠ "" then mapSet m p.name p.value else m) m)
    emptyMap

/-- The reconciled per-field values (`order-webhook.js` lines 105-117). -/
structure Reconciled where
  plan : String
  term : String
  sName : String
  sDate : String
  hasBI : Bool
  insurer : String
  dob : String
  cars : Option String
  notes : String
  houseJson : String
  vehJson : String
deriving DecidableEq, Repr

/-- Reconcile note attributes and line-item properties (props override
attrs via `||`; `??` for the cars count). -/
def reconcileOrder (o : Order) : Reconciled :=
  let attrs := pullAttrs o
  let props := pullProps o
  { plan := jsOr (props "retainer_plan") (jsOr (attrs "retainer_plan") "")
  , term := jsOr (props "retainer_term") (jsOr (attrs "retainer_term") "")
  , sName := jsOr (props "signed_name") (jsOr (attrs "retainer_signed_name") "")
  , sDate := jsOr (props "signed_date") (jsOr (attrs "retainer_signed_date") "")
  , hasBI := props "intake_has_bi" = some "yes" ∨ props "has_bi" = some "true" ∨
             attrs "retainer_has_bi" = some "yes"
  , insurer := jsOr (props "intake_insurer") (jsOr (props "insurer") "")
  , dob := jsOr (props "intake_dob") (jsOr (props "dob") "")
  , cars := (props "intake_cars_count").or (props "cars_count")
  , notes := jsOr (props "intake_notes") ""
  , houseJson := jsOr (props "intake_household_json") "[]"
  , vehJson := jsOr (props "intake_vehicles_json") "[]" }

/-- One pretty household entry: `[h.name,h.dob,h.relationship]
.filter(Boolean).join(' — ')`. -/
def prettyHouseItem (h : Json) : String :=
  strJoin " — "
    ([jsonFieldStr h "name", jsonFieldStr h "dob", jsonFieldStr h "relationship"].filter (· ≠ ""))

/-- One pretty vehicle entry: `[v.year,v.make,v.model].filter(Boolean)
.join(' ')`. -/
def prettyVehItem (v : Json) : String :=
  strJoin " "
    ([jsonFieldStr v "year", jsonFieldStr v "make", jsonFieldStr v "model"].filter (· ≠ ""))

/-- `toPrettyHouse(arr)`: `(arr||[]).map(...).filter(Boolean).join(' | ')`.
A truthy non-array has no `.map` and throws. -/
def toPrettyHouse (j : Json) : Except String String :=
  match j with
  | .arr l => .ok (strJoin " | " ((l.map prettyHouseItem).filter (· ≠ "")))
  | _ => if jsTruthy j then .error "map is not a function" else .ok ""

/-- `toPrettyVeh(arr)`, analogously. -/
def toPrettyVeh (j : Json) : Except String String :=
  match j with
  | .arr l => .ok (strJoin " | " ((l.map prettyVehItem).filter (· ≠ "")))
  | _ => if jsTruthy j then .error "map is not a function" else .ok ""

/-- The order-metafield batch the handler accumulates before the file
section (`order-webhook.js` lines 100-146); an `error` is a thrown
`TypeError` reaching the handler's catch. -/
def buildOrderMfs (o : Order) : Except String (List MF) :=
  let gid := orderGid o.id
  let r := reconcileOrder o
  let houseArr := match Json.parse r.houseJson with | some j => j | none => .arr []
  let vehArr := match Json.parse r.vehJson with | some j => j | none => .arr []
  match toPrettyHouse houseArr, toPrettyVeh vehArr with
  | .ok hs, .ok vs =>
    let mfs := pushSL [] gid "plan" r.plan
    let mfs := pushSL mfs gid "term" r.term
    let mfs := pushBL mfs gid "bi_info" r.hasBI
    let mfs := pushSL mfs gid "insurer" r.insurer
    let mfs := pushNI mfs gid "cars_count" r.cars
    let mfs := pushDT mfs gid "dob" r.dob
    let mfs := pushSL mfs gid "signed_name" r.sName
    let mfs := pushDT mfs gid "signed_date" r.sDate
    let mfs := pushSL mfs gid "household_list" hs
    let mfs := pushSL mfs gid "vehicles_list" vs
    let mfs := pushJSON mfs gid "intake_household" houseArr (r.houseJson.length + 4)
    let mfs := pushJSON mfs gid "intake_vehicles" vehArr (r.vehJson.length + 4)
    let mfs := if r.notes ≠ "" then pushML mfs gid "intake_notes" r.notes else mfs
    .ok mfs
  | .error e, _ => .error e
  | _, .error e => .error e

/-- One node of the customer `retainer` metafields query: its key and the
id of its file reference, if any. -/
structure FileNode where
  key : String
  refId : Option String
deriving DecidableEq, Repr

/-- `Object.fromEntries(nodes.map(n => [n.key, n]))`: the last node wins on
key collision. -/
def byKeyFind (nodes : List FileNode) (k : String) : Option FileNode :=
  nodes.reverse.find? (fun n => n.key = k)

/-- `x || null` for an optional id. -/
def jsOptStr (o : Option String) : Option String :=
  match o with
  | some s => if s = "" then none else some s
  | none => none

/-- The file-reference entries copied from the matched customer
(`order-webhook.js` lines 160-166). -/
def buildFileMfs (gid : String) (nodes : List FileNode) : List MF :=
  let sig := jsOptStr ((byKeyFind nodes "signature").bind (·.refId))
  let dl := jsOptStr ((byKeyFind nodes "drivers_license").bind (·.refId))
  let ic := jsOptStr ((byKeyFind nodes "car_insurance").bind (·.refId))
  pushFILE (pushFILE (pushFILE [] gid "signature" sig) gid "drivers_license" dl) gid "car_insurance" ic

/-- The customer `last_retainer_*` snapshot batch (`order-webhook.js`
lines 177-180). -/
def buildCustomerMfs (cgid plan term : String) : List MF :=
  let cmf := if plan ≠ "" then pushSL [] cgid "last_retainer_plan" plan else []
  if term ≠ "" then pushSL cmf cgid "last_retainer_term" term else cmf

/-! ## The order-webhook handler -/

/-- The remote GraphQL oracle for the webhook handler: each call either
returns a value or throws (`Except.error`). -/
structure OWRemote where
  customersByEmail : String → Except String (Option String)
  customerFiles : String → Except String (List FileNode)
  metafieldsSet : List MF → Except String (List (String × String))

/-- The body of the handler's `try` block, after `JSON.parse` succeeded. -/
def orderTry (o : Order) (rm : OWRemote) : Except String Unit := do
  let mfs0 ← buildOrderMfs o
  let r := reconcileOrder o
  let direct : Option String :=
    match o.customer with
    | some cid => if cid ≠ 0 then some (customerGidStr cid) else none
    | none => none
  let cgid : Option String ←
    match direct with
    | some g => pure (some g)
    | none =>
      if o.email ≠ "" then do
        let res ← rm.customersByEmail ("email:" ++ jsonQuote (strLower o.email))
        pure (jsOptStr res)
      else pure none
  let mfs ←
    match cgid with
    | some g => do
      let nodes ← rm.customerFiles g
      pure (mfs0 ++ buildFileMfs (orderGid o.id) nodes)
    | none => pure mfs0
  if mfs ≠ [] then
    let _ ← rm.metafieldsSet mfs
    pure ()
  else pure ()
  match cgid with
  | some g =>
    let cmf := buildCustomerMfs g r.plan r.term
    if cmf ≠ [] then
      let _ ← rm.metafieldsSet cmf
      pure ()
    else pure ()
  | none => pure ()

/-- Extraction of the handler's order fields from the parsed JSON body. -/
def jsonProps (o : Option Json) : List OProp :=
  match o with
  | some (.arr l) => l.map (fun e => ⟨jsonFieldStr e "name", jsonFieldStr e "value"⟩)
  | _ => []

/-- A non-negative integral JSON field as a `Nat` (0 otherwise). -/
def jsonFieldNat (j : Json) (k : String) : Nat :=
  match jsonField j k with
  | some (.num m p) => if 0 ≤ p ∧ 0 ≤ m then m.toNat * 10 ^ p.toNat else 0
  | _ => 0

/-- The typed order payload read off the parsed webhook body. -/
def orderOfJson (j : Json) : Order :=
  { id := jsonFieldNat j "id"
  , note_attributes := jsonProps (jsonField j "note_attributes")
  , line_items :=
      match jsonField j "line_items" with
      | some (.arr l) => l.map (fun li => ⟨jsonProps (jsonField li "properties")⟩)
      | _ => []
  , customer :=
      match jsonField j "customer" with
      | some c => match jsonField c "id" with
        | some (.num m p) => if 0 ≤ p ∧ 0 ≤ m then some (m.toNat * 10 ^ p.toNat) else none
        | _ => none
      | none => none
  , email :=
      match jsonField j "email" with
      | some (.str s) => s
      | _ => "" }

/-- What the webhook invocation produces: an HTTP response, or an exception
escaping the handler (nothing catches it before the runtime). -/
inductive OWOutcome where
  | response (status : Nat) (body : String)
  | thrown
deriving DecidableEq, Repr

/-- `verify(req, raw)`: false when the secret is unset/empty or the header
is absent/empty; otherwise the header must equal the Base64 HMAC-SHA256 of
the raw body.  (`Buffer.from` on both sides plus the length guard and
`timingSafeEqual` amount to string equality; the constant-time aspect has no
functional content.) -/
def verifyHmac (secret : List Nat) (sig : String) (raw : List Nat) : Bool :=
  if secret.isEmpty ∨ sig = "" then false
  else sig == hmacBase64 secret raw

/-- The order-webhook handler (`order-webhook.js` lines 90-189).  `JSON.parse`
of the raw body happens before the `try` block: a parse failure is an
uncaught exception. -/
def orderWebhook (secret : List Nat) (method : String) (sig : String) (raw : List Nat)
    (rm : OWRemote) : OWOutcome :=
  if method = "GET" then .response 200 "ok"
  else if method ≠ "POST" then .response 405 ""
  else if ¬ verifyHmac secret sig raw then .response 401 "invalid hmac"
  else
    match Json.parse (asciiDecode raw) with
    | none => .thrown
    | some j =>
      match orderTry (orderOfJson j) rm with
      | .ok _ => .response 200 "ok"
      | .error _ => .response 200 "error"

/-! ## The intake-upsert handler (`intake-upsert.js`, current revision)

The remote platform is an explicit state: customers, a metafield store
keyed by `(ownerId, namespace, key)`, uploaded files, and a fresh-id
counter.  GraphQL mutations are modelled by their documented happy-path
semantics (the spec's "look up by normalized email, create if absent,
update otherwise; staged upload then commit yields an opaque fresh file
id"); the handler's own control flow is translated line by line.  The
`muts` component of a result records which remote *mutations* were
attempted (lookups are queries and are not recorded). -/

/-- A vehicle entry, reduced to the fields the handlers read (absent or
falsy fields are `""`). -/
structure Veh where
  year : String
  make : String
  model : String
deriving DecidableEq, Repr

/-- A household-member entry, reduced to the fields the handlers read. -/
structure Hh where
  name : String
  dob : String
  relationship : String
deriving DecidableEq, Repr

/-- The intake POST body (string fields are `none` when absent; `vehicles`
and `household` are `none` when absent or not arrays). -/
structure IntakePayload where
  email : Option String
  first_name : Option String
  last_name : Option String
  phone : Option String
  password : Option String
  home_address : Option String
  dob : Option String
  insurer : Option String
  bi_limits : Option String
  cars_count : Option String
  intake_notes : Option String
  retainer_plan : Option String
  retainer_term : Option String
  has_bi : Bool
  signature_data_url : Option String
  license_data_url : Option String
  insurance_card_data_url : Option String
  vehicles : Option (List Veh)
  household : Option (List Hh)
deriving DecidableEq, Repr

/-- A customer address. -/
structure RAddr where
  address1 : String
  firstName : Option String
  lastName : Option String
deriving DecidableEq, Repr

/-- A remote customer record. -/
structure Customer where
  id : Nat
  email : String
  cstate : String
  firstName : Option String
  lastName : Option String
  phone : Option String
  addresses : List RAddr
deriving DecidableEq, Repr

/-- The remote platform state. -/
structure ShopState where
  customers : List Customer
  metafields : String → String → String → Option (String × String)
  files : List (Nat × String)
  nextId : Nat

/-- `CustomerInput` for `customerUpdate`: `none` fields are `undefined` and
leave the remote value unchanged. -/
structure CustomerInput where
  email : String
  firstName : Option String
  lastName : Option String
  phone : Option String
  addresses : Option (List RAddr)
deriving DecidableEq, Repr

/-- Apply a `customerUpdate` input to a customer. -/
def applyCustomerInput (inp : CustomerInput) (c : Customer) : Customer :=
  { c with
    email := inp.email
    firstName := match inp.firstName with | some v => some v | none => c.firstName
    lastName := match inp.lastName with | some v => some v | none => c.lastName
    phone := match inp.phone with | some v => some v | none => c.phone
    addresses := match inp.addresses with | some l => l | none => c.addresses }

/-- `customers(first:1, query:"email:...")`: the first customer with the
queried (already normalized) email. -/
def findCustomer (st : ShopState) (email : String) : Option Customer :=
  st.customers.find? (fun c => c.email == email)

/-- `customerUpdate` on the remote state. -/
def updateCustomerById (st : ShopState) (id : Nat) (inp : CustomerInput) : ShopState :=
  { st with customers := st.customers.map (fun c => if c.id = id then applyCustomerInput inp c else c) }

/-- `metafieldsSet` for one entry: upsert by `(ownerId, namespace, key)`. -/
def setMF (m : String → String → String → Option (String × String)) (mf : MF) :
    String → String → String → Option (String × String) :=
  fun o n k => if o = mf.ownerId ∧ n = mf.ns ∧ k = mf.key then some (mf.type, mf.value) else m o n k

/-- `metafieldsSet` for a batch. -/
def applyMfs (m : String → String → String → Option (String × String)) (mfs : List MF) :
    String → String → String → Option (String × String) :=
  mfs.foldl setMF m

/-- The value a batch itself assigns to a store key (later entries win);
`none` when the batch does not touch the key. -/
def lookupBatch (L : List MF) (o n k : String) : Option (String × String) :=
  match L with
  | [] => none
  | mf :: rest =>
    match lookupBatch rest o n k with
    | some tv => some tv
    | none => if o = mf.ownerId ∧ n = mf.ns ∧ k = mf.key then some (mf.type, mf.value) else none

/-- The gid of an uploaded file. -/
def fileGid (n : Nat) : String := "gid://shopify/File/" ++ toString n

/-- `uploadDataUrlToFiles`: a data-URL without the `data:` prefix yields
`{fileId:null, error:'invalid data url'}` with no remote call; otherwise the
staged-upload handshake commits a fresh file and returns its id. -/
def uploadDataUrlToFiles (st : ShopState) (u : String) :
    ShopState × Option String × List String :=
  if ¬ strStartsWith u "data:" then (st, none, [])
  else ({ st with files := st.files ++ [(st.nextId, u)], nextId := st.nextId + 1 },
        some (fileGid st.nextId), ["stagedUploadsCreate", "stagedUploadPost", "fileCreate"])

/-- `p.x ? await uploadDataUrlToFiles(p.x, ...) : {fileId:null}`. -/
def optUpload (st : ShopState) (o : Option String) : ShopState × Option String × List String :=
  match o with
  | some s => if s ≠ "" then uploadDataUrlToFiles st s else (st, none, [])
  | none => (st, none, [])

/-- A `retainer`-namespaced metafield entry. -/
def mkRMF (owner key ty v : String) : MF := ⟨"retainer", owner, key, ty, v⟩

/-- The pretty vehicles list (`intake-upsert.js` lines 238-240). -/
def vehiclesListOf (p : IntakePayload) : List String :=
  ((p.vehicles.getD []).filter (fun v => v.year ≠ "" ∨ v.make ≠ "" ∨ v.model ≠ "")).map
    (fun v => jsTrim (strJoin " " ([v.year, v.make, v.model].filter (· ≠ ""))))

/-- The pretty household list (`intake-upsert.js` lines 242-244). -/
def householdListOf (p : IntakePayload) : List String :=
  ((p.household.getD []).filter (fun h => h.name ≠ "" ∨ h.dob ≠ "" ∨ h.relationship ≠ "")).map
    (fun h => (strJoin " — " ([h.name, h.dob, h.relationship].filter (· ≠ ""))).trim)

/-- The customer metafield batch of the current intake revision
(`intake-upsert.js` lines 247-274). -/
def buildIntakeMfs (p : IntakePayload) (owner : String) (sig dl ci : Option String) : List MF :=
  (if nonBlank p.dob ∧ isYMD (jsStr p.dob) then [mkRMF owner "dob" "date" (jsStr p.dob)] else [])
  ++ (if nonBlank p.insurer then [mkRMF owner "insurer" "single_line_text_field" (jsStr p.insurer)] else [])
  ++ [mkRMF owner "has_bi" "boolean" (if p.has_bi then "true" else "false")]
  ++ [mkRMF owner "cars_count" "number_integer" (p.cars_count.getD "0")]
  ++ (if vehiclesListOf p ≠ [] then
        [mkRMF owner "vehicles_list" "list.single_line_text_field" (stringifyStrList (vehiclesListOf p))]
      else [])
  ++ (if householdListOf p ≠ [] then
        [mkRMF owner "household_list" "list.single_line_text_field" (stringifyStrList (householdListOf p))]
      else [])
  ++ (if nonBlank p.intake_notes then
        [mkRMF owner "intake_notes" "multi_line_text_field" (jsStr p.intake_notes)]
      else [])
  ++ (if nonBlank p.retainer_plan then
        [mkRMF owner "last_retainer_plan" "single_line_text_field" (jsStr p.retainer_plan),
         mkRMF owner "current_retainer_plan" "single_line_text_field" (jsStr p.retainer_plan)]
      else [])
  ++ (if nonBlank p.retainer_term then
        [mkRMF owner "last_retainer_term" "single_line_text_field" (jsStr p.retainer_term),
         mkRMF owner "current_retainer_term" "single_line_text_field" (jsStr p.retainer_term)]
      else [])
  ++ (match jsOptStr sig with | some g => [mkRMF owner "signature" "file_reference" g] | none => [])
  ++ (match jsOptStr dl with | some g => [mkRMF owner "drivers_license" "file_reference" g] | none => [])
  ++ (match jsOptStr ci with | some g => [mkRMF owner "car_insurance" "file_reference" g] | none => [])

/-- The normalized email: `String(p.email||'').trim().toLowerCase()`. -/
def normEmail (p : IntakePayload) : String := strLower (jsTrim (jsStr p.email))

/-- The Admin-side `customerUpdate` input built from the payload
(`intake-upsert.js` lines 185-195). -/
def baseInputOf (p : IntakePayload) : CustomerInput :=
  { email := normEmail p
  , firstName :=
      if jsTrim (jsStr p.first_name) = "" then none else some (jsTrim (jsStr p.first_name))
  , lastName :=
      if jsTrim (jsStr p.last_name) = "" then none else some (jsTrim (jsStr p.last_name))
  , phone := if jsTrim (jsStr p.phone) = "" then none else some (jsTrim (jsStr p.phone))
  , addresses :=
      match p.home_address with
      | some a =>
        if a ≠ "" then
          some [⟨a,
            (if jsTrim (jsStr p.first_name) = "" then none else some (jsTrim (jsStr p.first_name))),
            (if jsTrim (jsStr p.last_name) = "" then none else some (jsTrim (jsStr p.last_name)))⟩]
        else none
      | none => none }

/-- The customer the Storefront `customerCreate` adds: fresh id, normalized
email, enabled state, the provided names. -/
def newCustomerOf (st : ShopState) (p : IntakePayload) : Customer :=
  ⟨st.nextId, normEmail p, "ENABLED",
   (if jsTrim (jsStr p.first_name) = "" then none else some (jsTrim (jsStr p.first_name))),
   (if jsTrim (jsStr p.last_name) = "" then none else some (jsTrim (jsStr p.last_name))),
   none, []⟩

/-- The result of one intake-upsert invocation. -/
structure IntakeResult where
  state : ShopState
  status : Nat
  ok : Bool
  error : Option String
  muts : List String

/-- The tail of the handler after a customer id is in hand: uploads,
metafield batch, `metafieldsSet`, success envelope. -/
def intakeAfterCustomer (st : ShopState) (p : IntakePayload) (id : Nat) (muts0 : List String) :
    IntakeResult :=
  let u1 := optUpload st p.signature_data_url
  let u2 := optUpload u1.1 p.license_data_url
  let u3 := optUpload u2.1 p.insurance_card_data_url
  let st3 := u3.1
  let mf := buildIntakeMfs p (customerGidStr id) u1.2.1 u2.2.1 u3.2.1
  let st4 := if mf ≠ [] then { st3 with metafields := applyMfs st3.metafields mf } else st3
  ⟨st4, 200, true, none, muts0 ++ u1.2.2 ++ u2.2.2 ++ u3.2.2 ++ (if mf ≠ [] then ["metafieldsSet"] else [])⟩

/-- The current intake-upsert handler (`intake-upsert.js` lines 156-288) on
the happy remote (no transport errors, no `userErrors`). -/
def intakeUpsert (st : ShopState) (p : IntakePayload) : IntakeResult :=
  if ¬ isEmail (normEmail p) then ⟨st, 400, false, some "invalid or missing email", []⟩
  else if ¬ isPhoneLoose (jsTrim (jsStr p.phone)) then
    ⟨st, 400, false, some "invalid or missing phone", []⟩
  else
    match findCustomer st (normEmail p) with
    | none =>
      if jsTrim (jsStr p.password) = "" then ⟨st, 400, false, some "missing password", []⟩
      else
        let st1 : ShopState :=
          { st with customers := st.customers ++ [newCustomerOf st p], nextId := st.nextId + 1 }
        match findCustomer st1 (normEmail p) with
        | none => ⟨st1, 200, false, some "customer not visible in Admin after creation",
                   ["sfCustomerCreate"]⟩
        | some c2 =>
          intakeAfterCustomer (updateCustomerById st1 c2.id (baseInputOf p)) p c2.id
            ["sfCustomerCreate", "customerUpdate"]
    | some c =>
      intakeAfterCustomer (updateCustomerById st c.id (baseInputOf p)) p c.id ["customerUpdate"]

/-! ## The earlier intake-upsert revision (second file variant, lines 408-508)

Only its customer-metafield batch is needed: it is written unconditionally
for every field, with `p.dob || ''` as the `date` value. -/

/-- `JSON.stringify` of one vehicle object. -/
def vehJsonStr (v : Veh) : String :=
  "\x7b\"year\":" ++ jsonQuote v.year ++ ",\"make\":" ++ jsonQuote v.make ++
  ",\"model\":" ++ jsonQuote v.model ++ "\x7d"

/-- `JSON.stringify` of one household-member object. -/
def hhJsonStr (h : Hh) : String :=
  "\x7b\"name\":" ++ jsonQuote h.name ++ ",\"dob\":" ++ jsonQuote h.dob ++
  ",\"relationship\":" ++ jsonQuote h.relationship ++ "\x7d"

/-- `JSON.stringify(p.vehicles || [])`. -/
def legacyVehiclesJson (o : Option (List Veh)) : String :=
  "[" ++ strJoin "," ((o.getD []).map vehJsonStr) ++ "]"

/-- `JSON.stringify(p.household || [])`. -/
def legacyHouseholdJson (o : Option (List Hh)) : String :=
  "[" ++ strJoin "," ((o.getD []).map hhJsonStr) ++ "]"

/-- The metafield batch of the earlier intake revision (its lines 466-488):
every entry is unconditional, and blank sources are sent as `''`. -/
def legacyIntakeMfs (p : IntakePayload) (owner : String) (sigFileId : Option String) : List MF :=
  [ mkRMF owner "dob" "date" (jsStr p.dob)
  , mkRMF owner "insurer" "single_line_text_field" (jsStr p.insurer)
  , mkRMF owner "bi_limits" "single_line_text_field" (jsStr p.bi_limits)
  , mkRMF owner "has_bi" "boolean" (if p.has_bi then "true" else "false")
  , mkRMF owner "cars_count" "number_integer" (p.cars_count.getD "0")
  , mkRMF owner "vehicles_json" "json" (legacyVehiclesJson p.vehicles)
  , mkRMF owner "household_json" "json" (legacyHouseholdJson p.household)
  , mkRMF owner "intake_notes" "multi_line_text_field" (jsStr p.intake_notes)
  , mkRMF owner "last_retainer_plan" "single_line_text_field" (jsStr p.retainer_plan)
  , mkRMF owner "last_retainer_term" "single_line_text_field" (jsStr p.retainer_term) ]
  ++ (match jsOptStr sigFileId with
      | some g => [⟨"custom", owner, "retainer_signature", "file_reference", fileRefValue g⟩]
      | none => [])

/-! ## The record handler (`record.js`, Supabase backend) -/

/-- The record PUT body. -/
structure RecPayload where
  email : Option String
  full_name : Option String
  first_name : Option String
  last_name : Option String
  dob : Option String
  phone : Option String
  home_address : Option String
  insurer : Option String
  bi_limits : Option String
  notes : Option String
  cars_count : Option String
  signature_url : Option String
  signature_data_url : Option String
  has_bi : Bool
  household : Option (List Hh)
  vehicles : Option (List Veh)
deriving DecidableEq, Repr

/-- A stored `customer_intakes` row. -/
structure RecordRow where
  email : String
  full_name : Option String
  first_name : Option String
  last_name : Option String
  dob : Option String
  phone : Option String
  home_address : Option String
  insurer : Option String
  bi_limits : Option String
  notes : Option String
  has_bi : Bool
  cars_count : JNum
  household : List Hh
  vehicles : List Veh
  signature_url : Option String
  updated_at : Nat
deriving DecidableEq, Repr

/-- The Supabase-side state: table rows and uploaded signature objects. -/
structure RecState where
  rows : List RecordRow
  sigPaths : List String
deriving DecidableEq, Repr

/-- Character class kept by `keyPath`'s sanitizer. -/
def keyPathGood (c : Char) : Bool :=
  ('a' ≤ c ∧ c ≤ 'z') ∨ c.isDigit ∨ c = '.' ∨ c = '_' ∨ c = '-'

/-- `replace(/[^a-z0-9._-]+/g,'-')`: each maximal bad run becomes one dash
(the flag records whether the previous character was part of a bad run). -/
def sanitizeGo : Bool → List Char → List Char
  | _, [] => []
  | prevBad, c :: rest =>
    if keyPathGood c then c :: sanitizeGo false rest
    else if prevBad then sanitizeGo true rest
    else '-' :: sanitizeGo true rest

/-- `keyPath(email)`: `signatures/<sanitized>/<now>.png`. -/
def keyPath (email : String) (t : Nat) : String :=
  "signatures/" ++ String.mk (sanitizeGo false (strLower email).data) ++ "/" ++ toString t ++ ".png"

/-- `saveSignature`: a data-URL not prefixed `data:image/png` yields
`{url:null, error:null}` without touching storage; otherwise the object is
uploaded and its public URL returned (happy storage). -/
def saveSignature (st : RecState) (u email : String) (t : Nat) : RecState × Option String :=
  if ¬ strStartsWith u "data:image/png" then (st, none)
  else
    let path := keyPath email t
    ({ st with sigPaths := st.sigPaths ++ [path] }, some ("https://storage.invalid/" ++ path))

/-- Upsert a row by email (`onConflict:'email'`). -/
def upsertRow (rows : List RecordRow) (row : RecordRow) : List RecordRow :=
  if rows.any (fun r => r.email = row.email) then
    rows.map (fun r => if r.email = row.email then row else r)
  else rows ++ [row]

/-- The stored `cars_count` of a record row:
`Number.isFinite(+p.cars_count) ? +p.cars_count : 0`. -/
def recordCars (c : Option String) : JNum :=
  match jsNumOfUndef c with
  | .nan => .fin 0 0
  | v => v

/-- The response envelope of a record PUT. -/
structure RecResp where
  status : Nat
  ok : Bool
  error : Option String
deriving DecidableEq, Repr

/-- The record handler's PUT branch (`record.js` lines 55-91), with `t`
standing for `Date.now()`/`new Date()` of the invocation. -/
def recordPut (st : RecState) (p : RecPayload) (t : Nat) :
    RecState × RecResp × Option RecordRow :=
  let email := strLower (jsTrim (jsStr p.email))
  if email = "" then (st, ⟨400, false, some "missing email"⟩, none)
  else
    let pre := jsOptStr p.signature_url
    let stUp :=
      match pre with
      | some _ => (st, none)
      | none =>
        match p.signature_data_url with
        | some u => if u ≠ "" then saveSignature st u email t else (st, none)
        | none => (st, none)
    let signature_url := match pre with | some s => some s | none => stUp.2
    let row : RecordRow :=
      { email := email
      , full_name := p.full_name
      , first_name := p.first_name
      , last_name := p.last_name
      , dob := jsOptStr p.dob
      , phone := p.phone
      , home_address := p.home_address
      , insurer := p.insurer
      , bi_limits := p.bi_limits
      , notes := p.notes
      , has_bi := p.has_bi
      , cars_count := recordCars p.cars_count
      , household := p.household.getD []
      , vehicles := p.vehicles.getD []
      , signature_url := signature_url
      , updated_at := t }
    ({ stUp.1 with rows := upsertRow stUp.1.rows row }, ⟨200, true, none⟩, some row)

/-! ## The customer-create handler (`customer-create.js`) -/

/-- `customer-create.js`: presence validation of email and password, then
one Storefront `customerCreate` (happy remote).  Returns status, `ok`, and
the attempted mutations. -/
def customerCreateHandler (p : IntakePayload) : Nat × Bool × List String :=
  let email := strLower (jsTrim (jsStr p.email))
  let password := jsTrim (jsStr p.password)
  if email = "" ∨ password = "" then (400, false, [])
  else (200, true, ["sfCustomerCreate"])

/-! ## Concrete fixtures for witnesses and counterexamples -/

/-- A configured webhook shared secret (bytes of `"shhh"`). -/
def fxSecret : List Nat := strBytes "shhh"

/-- A well-formed JSON webhook body (`"[]"`). -/
def fxBody : List Nat := strBytes "[]"

/-- `fxBody` with its second byte changed (`"[}"` instead of `"[]"`). -/
def fxBodyTampered : List Nat := strBytes "[\x7d"

/-- A body that is not JSON. -/
def fxBadBody : List Nat := strBytes "not json"

/-- A remote stub for the webhook handler (never consulted on the paths the
fixtures exercise before their outcome is fixed). -/
def fxRemote : OWRemote :=
  { customersByEmail := fun _ => .ok none
  , customerFiles := fun _ => .ok []
  , metafieldsSet := fun _ => .ok [] }

/-- An order carrying `retainer_plan` both as a note attribute and as a
line-item property, and `retainer_signed_name` only as a note attribute. -/
def fxOrder : Order :=
  { id := 7
  , note_attributes := [⟨"retainer_plan", "attrPlan"⟩, ⟨"retainer_signed_name", "Attr Name"⟩]
  , line_items := [⟨[⟨"retainer_plan", "propPlan"⟩, ⟨"intake_cars_count", "2"⟩,
                     ⟨"intake_dob", "1990-01-02"⟩]⟩]
  , customer := some 5
  , email := "User@Example.com" }

/-- A remote shop state holding one customer and one stored `dob`
metafield. -/
def fxShop : ShopState :=
  { customers := [⟨1, "a@b.co", "ENABLED", none, none, none, []⟩]
  , metafields := fun o n k =>
      if o = customerGidStr 1 ∧ n = "retainer" ∧ k = "dob" then some ("date", "1980-01-01")
      else none
  , files := []
  , nextId := 2 }

/-- An intake payload for the existing `fxShop` customer, carrying a PNG
signature data-URL. -/
def fxIntakeUp : IntakePayload :=
  { email := some "a@b.co", first_name := some "Al", last_name := some "Bee"
  , phone := some "1234567890", password := some "pw1234567"
  , home_address := none, dob := some "1990-01-02", insurer := some "Acme"
  , bi_limits := none, cars_count := some "2", intake_notes := none
  , retainer_plan := some "Gold", retainer_term := some "12mo", has_bi := true
  , signature_data_url := some "data:image/png;base64,AAAA"
  , license_data_url := none, insurance_card_data_url := none
  , vehicles := none, household := none }

/-- The same payload without any upload. -/
def fxIntakeNoUp : IntakePayload := { fxIntakeUp with signature_data_url := none }

/-- The same payload with a non-PNG, non-`data:` signature value. -/
def fxIntakeBadSig : IntakePayload := { fxIntakeUp with signature_data_url := some "http://x/y.png" }

/-- A payload whose email fails the regex. -/
def fxIntakeBadEmail : IntakePayload := { fxIntakeNoUp with email := some "foo" }

/-- A payload whose phone is too short. -/
def fxIntakeBadPhone : IntakePayload := { fxIntakeNoUp with phone := some "12345" }

/-- A payload for a fresh email with no password. -/
def fxIntakeNoPw : IntakePayload :=
  { fxIntakeNoUp with email := some "new@b.co", password := none }

/-- A payload with every optional metafield source blank. -/
def fxIntakeBlank : IntakePayload :=
  { email := some "a@b.co", first_name := none, last_name := none
  , phone := some "1234567890", password := some "pw1234567"
  , home_address := none, dob := none, insurer := none
  , bi_limits := none, cars_count := none, intake_notes := none
  , retainer_plan := none, retainer_term := none, has_bi := false
  , signature_data_url := none, license_data_url := none, insurance_card_data_url := none
  , vehicles := none, household := none }

/-- `fxShop` with previously stored `has_bi` and `dob` metafields. -/
def fxShopBI : ShopState :=
  { fxShop with
    metafields := fun o n k =>
      if o = customerGidStr 1 ∧ n = "retainer" ∧ k = "dob" then some ("date", "1980-01-01")
      else if o = customerGidStr 1 ∧ n = "retainer" ∧ k = "has_bi" then some ("boolean", "true")
      else if o = customerGidStr 1 ∧ n = "retainer" ∧ k = "cars_count" then
        some ("number_integer", "4")
      else none }

/-- A legacy-revision payload with a malformed date. -/
def fxLegacyBadDob : IntakePayload := { fxIntakeNoUp with dob := some "13/2024" }

/-- A record PUT body with a non-PNG signature data-URL and a non-numeric
cars count. -/
def fxRecPayload : RecPayload :=
  { email := some "a@b.co", full_name := none, first_name := none, last_name := none
  , dob := some "1990-01-02", phone := none, home_address := none, insurer := none
  , bi_limits := none, notes := none, cars_count := some "abc"
  , signature_url := none, signature_data_url := some "data:image/jpeg;base64,AAAA"
  , has_bi := false, household := none, vehicles := none }

/-- An empty record-backend state. -/
def fxRecState : RecState := ⟨[], []⟩

/-! # Theorems

Helper lemmas first, then one theorem per claim (with a witness wherever
the claim theorem carries a hypothesis). -/

/-- `verify` succeeds exactly when the secret is configured, the header is
present, and the header equals the Base64 HMAC of the raw body. -/
lemma verifyHmac_eq_true_iff (secret : List Nat) (sig : String) (raw : List Nat) :
    verifyHmac secret sig raw = true ↔
      secret ≠ [] ∧ sig ≠ "" ∧ sig = hmacBase64 secret raw := by
  unfold verifyHmac
  split
  · rename_i h
    rcases h with h | h
    · simp [List.isEmpty_iff.mp h]
    · simp [h]
  · rename_i h
    push_neg at h
    simp only [beq_iff_eq]
    constructor
    · intro he
      exact ⟨fun hn => h.1 (by simp [hn]), h.2, he⟩
    · intro he
      exact he.2.2

/-- A POST whose verification succeeds never produces a 401 response. -/
lemma orderWebhook_post_verified (secret : List Nat) (sig : String) (raw : List Nat)
    (rm : OWRemote) (hv : verifyHmac secret sig raw = true) :
    orderWebhook secret "POST" sig raw rm = .thrown ∨
    orderWebhook secret "POST" sig raw rm = .response 200 "ok" ∨
    orderWebhook secret "POST" sig raw rm = .response 200 "error" := by
  unfold orderWebhook
  rw [if_neg (by decide), if_neg (by decide), hv, if_neg (by simp)]
  cases hp : Json.parse (asciiDecode raw) with
  | none => simp
  | some j => cases ht : orderTry (orderOfJson j) rm <;> simp [ht]

/-- C1.  For every POST to the order-webhook handler, the request is
rejected with HTTP 401, body `invalid hmac`, exactly unless the shared
secret is configured, the `X-Shopify-Hmac-Sha256` header is present, and
the header equals the Base64 HMAC-SHA256 of the raw body under the secret;
concretely, a correctly signed body verifies, the same signature over a
body with one byte changed is rejected with 401, and a correctly signed
body is not answered with 401. -/
theorem hmac_verification_gate :
    (∀ (secret : List Nat) (sig : String) (raw : List Nat) (rm : OWRemote),
      orderWebhook secret "POST" sig raw rm = .response 401 "invalid hmac" ↔
        ¬ (secret ≠ [] ∧ sig ≠ "" ∧ sig = hmacBase64 secret raw)) ∧
    verifyHmac fxSecret (hmacBase64 fxSecret fxBody) fxBody = true ∧
    verifyHmac fxSecret (hmacBase64 fxSecret fxBody) fxBodyTampered = false ∧
    orderWebhook fxSecret "POST" (hmacBase64 fxSecret fxBody) fxBodyTampered fxRemote =
      .response 401 "invalid hmac" ∧
    orderWebhook fxSecret "POST" (hmacBase64 fxSecret fxBody) fxBody fxRemote ≠
      .response 401 "invalid hmac" := by
  refine ⟨fun secret sig raw rm => ?_, by decide, by decide, by decide, by decide⟩
  constructor
  · intro h hc
    have hv : verifyHmac secret sig raw = true := (verifyHmac_eq_true_iff _ _ _).mpr hc
    rcases orderWebhook_post_verified secret sig raw rm hv with h2 | h2 | h2 <;>
      rw [h] at h2 <;> simp at h2
  · intro hc
    have hv : verifyHmac secret sig raw = false := by
      cases hvb : verifyHmac secret sig raw
      · rfl
      · exact absurd ((verifyHmac_eq_true_iff _ _ _).mp hvb) hc
    unfold orderWebhook
    simp [hv]

/-- Witness for C1: with the secret configured but the header missing, the
handler answers 401 `invalid hmac`. -/
theorem hmac_verification_gate_witness :
    orderWebhook fxSecret "POST" "" fxBody fxRemote = .response 401 "invalid hmac" :=
  (hmac_verification_gate.1 fxSecret "" fxBody fxRemote).mpr (by decide)

/-- Counterexample to C2 as stated: a body that is signed correctly but is
not JSON escapes the handler's catch (`JSON.parse` runs before the `try`
block) — the outcome is an uncaught exception, not an HTTP 200 response. -/
theorem webhook_ack_nonjson_counterexample :
    verifyHmac fxSecret (hmacBase64 fxSecret fxBadBody) fxBadBody = true ∧
    orderWebhook fxSecret "POST" (hmacBase64 fxSecret fxBadBody) fxBadBody fxRemote =
      .thrown := by
  exact ⟨by decide, by decide⟩

/-- C2 (amended).  For every POST whose HMAC verification succeeds *and
whose raw body parses as JSON*, the handler responds HTTP 200 with body
`ok` or `error` whatever the remote calls do; a verified body that does not
parse as JSON instead escapes as an uncaught exception. -/
theorem webhook_always_acks_parsed_bodies :
    ∀ (secret : List Nat) (sig : String) (raw : List Nat) (rm : OWRemote),
      verifyHmac secret sig raw = true →
      ((Json.parse (asciiDecode raw)).isNone = true →
        orderWebhook secret "POST" sig raw rm = .thrown) ∧
      ((Json.parse (asciiDecode raw)).isSome = true →
        orderWebhook secret "POST" sig raw rm = .response 200 "ok" ∨
        orderWebhook secret "POST" sig raw rm = .response 200 "error") := by
  intro secret sig raw rm hv
  constructor
  · intro hnone
    unfold orderWebhook
    rw [if_neg (by decide), if_neg (by decide), hv, if_neg (by simp)]
    rw [Option.isNone_iff_eq_none.mp hnone]
  · intro hsome
    rcases orderWebhook_post_verified secret sig raw rm hv with h | h | h
    · exfalso
      unfold orderWebhook at h
      rw [if_neg (by decide), if_neg (by decide), hv, if_neg (by simp)] at h
      rcases hp : Json.parse (asciiDecode raw) with _ | j
      · rw [hp] at hsome
        simp at hsome
      · rw [hp] at h
        rcases ht : orderTry (orderOfJson j) rm <;> simp [ht] at h
    · exact Or.inl h
    · exact Or.inr h

/-- Witness for C2 (amended), at a correctly signed JSON body (`[]`) and a
correctly signed non-JSON body (`not json`). -/
theorem webhook_always_acks_parsed_bodies_witness :
    (orderWebhook fxSecret "POST" (hmacBase64 fxSecret fxBody) fxBody fxRemote =
       .response 200 "ok" ∨
     orderWebhook fxSecret "POST" (hmacBase64 fxSecret fxBody) fxBody fxRemote =
       .response 200 "error") ∧
    orderWebhook fxSecret "POST" (hmacBase64 fxSecret fxBadBody) fxBadBody fxRemote =
      .thrown :=
  ⟨(webhook_always_acks_parsed_bodies fxSecret (hmacBase64 fxSecret fxBody) fxBody fxRemote
      (by decide)).2 (by decide),
   (webhook_always_acks_parsed_bodies fxSecret (hmacBase64 fxSecret fxBadBody) fxBadBody fxRemote
      (by decide)).1 (by decide)⟩

/-- Looking up a `mapSet` result. -/
lemma mapSet_eval (m : String → Option String) (k v q : String) :
    mapSet m k v q = if q = k then some v else m q := rfl

/-- The inner property fold of `pullProps` only stores non-blank values. -/
lemma pullProps_inner_inv (props : List OProp) (m : String → Option String)
    (h : ∀ k v, m k = some v → jsTrim v ≠ "") :
    ∀ k v, (props.foldl
        (fun m p => if p.name ≠ "" ∧ jsTrim p.value ≠ "" then mapSet m p.name p.value else m) m)
        k = some v → jsTrim v ≠ "" := by
  induction props generalizing m with
  | nil => exact h
  | cons p t ih =>
    refine ih _ ?_
    intro k v hkv
    have hkv : (if p.name ≠ "" ∧ jsTrim p.value ≠ "" then mapSet m p.name p.value else m) k
        = some v := hkv
    by_cases hg : p.name ≠ "" ∧ jsTrim p.value ≠ ""
    · rw [if_pos hg, mapSet_eval] at hkv
      by_cases hk : k = p.name
      · rw [if_pos hk] at hkv
        cases hkv
        exact hg.2
      · rw [if_neg hk] at hkv
        exact h _ _ hkv
    · rw [if_neg hg] at hkv
      exact h _ _ hkv

/-- Every value `pullProps` stores is non-blank. -/
lemma pullProps_val (o : Order) (k v : String) (h : pullProps o k = some v) :
    jsTrim v ≠ "" := by
  unfold pullProps at h
  revert h
  generalize hm : emptyMap = m
  have hbase : ∀ k v, m k = some v → jsTrim v ≠ "" := by
    intro k v hkv
    rw [← hm] at hkv
    exact absurd hkv (by simp [emptyMap])
  clear hm
  induction o.line_items generalizing m with
  | nil => exact fun h => hbase _ _ h
  | cons li t ih => exact fun h => ih _ (pullProps_inner_inv li.properties m hbase) h

/-- A string with a non-blank trim is non-empty. -/
lemma ne_empty_of_jsTrim_ne (s : String) (h : jsTrim s ≠ "") : s ≠ "" := by
  intro he
  subst he
  exact h rfl

/-- `jsOr` on a truthy string. -/
lemma jsOr_some_ne (v d : String) (h : v ≠ "") : jsOr (some v) d = v := by
  simp [jsOr, h]

/-- C3.  In the order webhook, every reconciled field prefers the line-item
property over the note attribute: whenever `pullProps` supplies a value
(which is then non-blank by construction) for `retainer_plan`,
`retainer_term`, `signed_name` or `signed_date`, that value is taken
verbatim; the corresponding note attribute is consulted only when no line
item supplies the property; and the insurer, dob, cars-count and notes
fields are computed from line-item properties alone, independent of the
note attributes. -/
theorem line_item_props_override_note_attrs :
    ∀ (o : Order) (v : String) (nas : List OProp),
      (pullProps o "retainer_plan" = some v → (reconcileOrder o).plan = v) ∧
      (pullProps o "retainer_term" = some v → (reconcileOrder o).term = v) ∧
      (pullProps o "signed_name" = some v → (reconcileOrder o).sName = v) ∧
      (pullProps o "signed_date" = some v → (reconcileOrder o).sDate = v) ∧
      (pullProps o "retainer_plan" = none →
        (reconcileOrder o).plan = jsOr (pullAttrs o "retainer_plan") "") ∧
      (pullProps o "retainer_term" = none →
        (reconcileOrder o).term = jsOr (pullAttrs o "retainer_term") "") ∧
      (pullProps o "signed_name" = none →
        (reconcileOrder o).sName = jsOr (pullAttrs o "retainer_signed_name") "") ∧
      (pullProps o "signed_date" = none →
        (reconcileOrder o).sDate = jsOr (pullAttrs o "retainer_signed_date") "") ∧
      (reconcileOrder { o with note_attributes := nas }).insurer = (reconcileOrder o).insurer ∧
      (reconcileOrder { o with note_attributes := nas }).dob = (reconcileOrder o).dob ∧
      (reconcileOrder { o with note_attributes := nas }).cars = (reconcileOrder o).cars ∧
      (reconcileOrder { o with note_attributes := nas }).notes = (reconcileOrder o).notes := by
  intro o v nas
  have hwin : ∀ (k ak : String), pullProps o k = some v →
      jsOr (pullProps o k) (jsOr (pullAttrs o ak) "") = v := by
    intro k ak h
    rw [h, jsOr_some_ne _ _ (ne_empty_of_jsTrim_ne v (pullProps_val o k v h))]
  have hfall : ∀ (k ak : String), pullProps o k = none →
      jsOr (pullProps o k) (jsOr (pullAttrs o ak) "") = jsOr (pullAttrs o ak) "" := by
    intro k ak h
    rw [h]
    rfl
  refine ⟨fun h => hwin _ _ h, fun h => hwin _ _ h, fun h => hwin _ _ h, fun h => hwin _ _ h,
          fun h => hfall _ _ h, fun h => hfall _ _ h, fun h => hfall _ _ h, fun h => hfall _ _ h,
          rfl, rfl, rfl, rfl⟩

/-- Witness for C3, on an order where `retainer_plan` is supplied both as a
note attribute (`attrPlan`) and a line-item property (`propPlan`), while
`signed_name` is supplied only as a note attribute. -/
theorem line_item_props_override_note_attrs_witness :
    pullAttrs fxOrder "retainer_plan" = some "attrPlan" ∧
    (reconcileOrder fxOrder).plan = "propPlan" ∧
    (reconcileOrder fxOrder).sName = "Attr Name" :=
  ⟨by decide,
   (line_item_props_override_note_attrs fxOrder "propPlan" []).1 (by decide),
   ((line_item_props_override_note_attrs fxOrder "propPlan" []).2.2.2.2.2.2.1
      (by decide)).trans (by decide)⟩

/-- A single-line entry with non-empty value is well-formed. -/
lemma wfMF_sl (o k v : String) (h : v ≠ "") :
    wfMF ⟨"retainer", o, k, "single_line_text_field", v⟩ := h

/-- A multi-line entry with non-empty value is well-formed. -/
lemma wfMF_ml (o k v : String) (h : v ≠ "") :
    wfMF ⟨"retainer", o, k, "multi_line_text_field", v⟩ := h

/-- A date entry matching `YYYY-MM-DD` is well-formed. -/
lemma wfMF_dt (o k v : String) (h : isYMD v = true) :
    wfMF ⟨"retainer", o, k, "date", v⟩ := h

/-- A boolean entry rendered from a `Bool` is well-formed. -/
lemma wfMF_bl (o k : String) (tf : Bool) :
    wfMF ⟨"retainer", o, k, "boolean", if tf then "true" else "false"⟩ := by
  cases tf
  · exact Or.inr rfl
  · exact Or.inl rfl

/-- An integer entry rendering an integer is well-formed. -/
lemma wfMF_ni (o k : String) (i : Int) :
    wfMF ⟨"retainer", o, k, "number_integer", toString i⟩ := ⟨i, rfl⟩

/-- A json entry whose value parses is well-formed. -/
lemma wfMF_json (o k v : String) (h : (Json.parse v).isSome = true) :
    wfMF ⟨"retainer", o, k, "json", v⟩ := h

/-- A file-reference entry built from a truthy id is well-formed. -/
lemma wfMF_file (o k g : String) (h : g ≠ "") :
    wfMF ⟨"retainer", o, k, "file_reference", fileRefValue g⟩ := ⟨g, h, rfl⟩

/-- `pushSL` preserves the batch invariant. -/
lemma pushSL_pres (arr : List MF) (o k v : String)
    (h : ∀ m ∈ arr, m.ns = "retainer" ∧ wfMF m) :
    ∀ m ∈ pushSL arr o k v, m.ns = "retainer" ∧ wfMF m := by
  intro m hm
  simp only [pushSL] at hm
  split at hm
  · rcases List.mem_append.mp hm with h1 | h1
    · exact h m h1
    · rw [List.mem_singleton] at h1
      subst h1
      exact ⟨rfl, wfMF_sl _ _ _ (by assumption)⟩
  · exact h m hm

/-- `pushML` preserves the batch invariant. -/
lemma pushML_pres (arr : List MF) (o k v : String)
    (h : ∀ m ∈ arr, m.ns = "retainer" ∧ wfMF m) :
    ∀ m ∈ pushML arr o k v, m.ns = "retainer" ∧ wfMF m := by
  intro m hm
  simp only [pushML] at hm
  split at hm
  · rcases List.mem_append.mp hm with h1 | h1
    · exact h m h1
    · rw [List.mem_singleton] at h1
      subst h1
      exact ⟨rfl, wfMF_ml _ _ _ (by assumption)⟩
  · exact h m hm

/-- `pushDT` preserves the batch invariant. -/
lemma pushDT_pres (arr : List MF) (o k v : String)
    (h : ∀ m ∈ arr, m.ns = "retainer" ∧ wfMF m) :
    ∀ m ∈ pushDT arr o k v, m.ns = "retainer" ∧ wfMF m := by
  intro m hm
  simp only [pushDT] at hm
  split at hm
  · rcases List.mem_append.mp hm with h1 | h1
    · exact h m h1
    · rw [List.mem_singleton] at h1
      subst h1
      exact ⟨rfl, wfMF_dt _ _ _ (by assumption)⟩
  · exact h m hm

/-- `pushBL` preserves the batch invariant. -/
lemma pushBL_pres (arr : List MF) (o k : String) (tf : Bool)
    (h : ∀ m ∈ arr, m.ns = "retainer" ∧ wfMF m) :
    ∀ m ∈ pushBL arr o k tf, m.ns = "retainer" ∧ wfMF m := by
  intro m hm
  simp only [pushBL] at hm
  rcases List.mem_append.mp hm with h1 | h1
  · exact h m h1
  · rw [List.mem_singleton] at h1
    subst h1
    exact ⟨rfl, wfMF_bl _ _ _⟩

/-- `pushNI` preserves the batch invariant. -/
lemma pushNI_pres (arr : List MF) (o k : String) (n : Option String)
    (h : ∀ m ∈ arr, m.ns = "retainer" ∧ wfMF m) :
    ∀ m ∈ pushNI arr o k n, m.ns = "retainer" ∧ wfMF m := by
  intro m hm
  simp only [pushNI] at hm
  split at hm
  · rcases List.mem_append.mp hm with h1 | h1
    · exact h m h1
    · rw [List.mem_singleton] at h1
      subst h1
      exact ⟨rfl, wfMF_ni _ _ _⟩
  · exact h m hm

/-- `pushJSON` preserves the batch invariant. -/
lemma pushJSON_pres (arr : List MF) (o k : String) (val : Json) (fuel : Nat)
    (h : ∀ m ∈ arr, m.ns = "retainer" ∧ wfMF m) :
    ∀ m ∈ pushJSON arr o k val fuel, m.ns = "retainer" ∧ wfMF m := by
  intro m hm
  unfold pushJSON at hm
  split at hm
  · rcases List.mem_append.mp hm with h1 | h1
    · exact h m h1
    · rw [List.mem_singleton] at h1
      subst h1
      exact ⟨rfl, wfMF_json _ _ _ (by assumption)⟩
  · exact h m hm

/-- `pushFILE` preserves the batch invariant. -/
lemma pushFILE_pres (arr : List MF) (o k : String) (gid : Option String)
    (h : ∀ m ∈ arr, m.ns = "retainer" ∧ wfMF m) :
    ∀ m ∈ pushFILE arr o k gid, m.ns = "retainer" ∧ wfMF m := by
  intro m hm
  cases gid with
  | none => exact h m hm
  | some g =>
    simp only [pushFILE] at hm
    split at hm
    · exact h m hm
    · rcases List.mem_append.mp hm with h1 | h1
      · exact h m h1
      · rw [List.mem_singleton] at h1
        subst h1
        exact ⟨rfl, wfMF_file _ _ _ (by assumption)⟩

/-- An `if` with invariant-preserving branches preserves the invariant. -/
lemma ite_pres {c : Prop} [Decidable c] (arr arr' : List MF)
    (h : ∀ m ∈ arr, m.ns = "retainer" ∧ wfMF m)
    (h' : ∀ m ∈ arr', m.ns = "retainer" ∧ wfMF m) :
    ∀ m ∈ (if c then arr else arr'), m.ns = "retainer" ∧ wfMF m := by
  split
  · exact h
  · exact h'

/-- The empty batch satisfies the invariant. -/
lemma nil_pres : ∀ m ∈ ([] : List MF), m.ns = "retainer" ∧ wfMF m := by
  intro m hm
  exact absurd hm (List.not_mem_nil m)

/-- Every entry of the order batch is a `retainer`-namespaced, well-formed
metafield. -/
lemma buildOrderMfs_wf (o : Order) (mfs : List MF) (hok : buildOrderMfs o = .ok mfs) :
    ∀ m ∈ mfs, m.ns = "retainer" ∧ wfMF m := by
  simp only [buildOrderMfs] at hok
  split at hok
  · injection hok with hok
    subst hok
    exact ite_pres _ _
      (pushML_pres _ _ _ _
        (pushJSON_pres _ _ _ _ _
          (pushJSON_pres _ _ _ _ _
            (pushSL_pres _ _ _ _
              (pushSL_pres _ _ _ _
                (pushDT_pres _ _ _ _
                  (pushSL_pres _ _ _ _
                    (pushDT_pres _ _ _ _
                      (pushNI_pres _ _ _ _
                        (pushSL_pres _ _ _ _
                          (pushBL_pres _ _ _ _
                            (pushSL_pres _ _ _ _
                              (pushSL_pres _ _ _ _ nil_pres)))))))))))))
      (pushJSON_pres _ _ _ _ _
        (pushJSON_pres _ _ _ _ _
          (pushSL_pres _ _ _ _
            (pushSL_pres _ _ _ _
              (pushDT_pres _ _ _ _
                (pushSL_pres _ _ _ _
                  (pushDT_pres _ _ _ _
                    (pushNI_pres _ _ _ _
                      (pushSL_pres _ _ _ _
                        (pushBL_pres _ _ _ _
                          (pushSL_pres _ _ _ _
                            (pushSL_pres _ _ _ _ nil_pres))))))))))))
  · exact absurd hok (by simp)
  · exact absurd hok (by simp)

/-- C9.  Every element the push helpers append to the order-webhook
metafield batches — the order batch, the file-reference copies, and the
customer snapshot — carries namespace `retainer` and a value well-formed
for its declared type, so no blank, untyped, or type-mismatched entry ever
reaches `metafieldsSet`. -/
theorem order_webhook_metafields_wellformed :
    (∀ (o : Order) (mfs : List MF), buildOrderMfs o = .ok mfs →
      ∀ m ∈ mfs, m.ns = "retainer" ∧ wfMF m) ∧
    (∀ (gid : String) (nodes : List FileNode),
      ∀ m ∈ buildFileMfs gid nodes, m.ns = "retainer" ∧ wfMF m) ∧
    (∀ (cgid plan term : String),
      ∀ m ∈ buildCustomerMfs cgid plan term, m.ns = "retainer" ∧ wfMF m) := by
  refine ⟨buildOrderMfs_wf, ?_, ?_⟩
  · intro gid nodes
    exact pushFILE_pres _ _ _ _ (pushFILE_pres _ _ _ _ (pushFILE_pres _ _ _ _ nil_pres))
  · intro cgid plan term
    simp only [buildCustomerMfs]
    exact ite_pres _ _
      (pushSL_pres _ _ _ _ (ite_pres _ _ (pushSL_pres _ _ _ _ nil_pres) nil_pres))
      (ite_pres _ _ (pushSL_pres _ _ _ _ nil_pres) nil_pres)

/-- Witness for C9: the `signature` entry copied for a concrete customer
node is in the batch and well-formed. -/
theorem order_webhook_metafields_wellformed_witness :
    ((⟨"retainer", "g", "signature", "file_reference", fileRefValue "gid1"⟩ : MF) ∈
      buildFileMfs "g" [⟨"signature", some "gid1"⟩]) ∧
    ((⟨"retainer", "g", "signature", "file_reference", fileRefValue "gid1"⟩ : MF).ns = "retainer" ∧
      wfMF ⟨"retainer", "g", "signature", "file_reference", fileRefValue "gid1"⟩) :=
  ⟨by decide,
   order_webhook_metafields_wellformed.2.1 "g" [⟨"signature", some "gid1"⟩] _ (by decide)⟩

/-- Membership in a guarded singleton. -/
lemma mem_guard_one {c : Prop} [Decidable c] {m x : MF} (h : m ∈ (if c then [x] else [])) :
    c ∧ m = x := by
  split at h
  · exact ⟨by assumption, List.mem_singleton.mp h⟩
  · exact absurd h (List.not_mem_nil m)

/-- Membership in a guarded pair. -/
lemma mem_guard_two {c : Prop} [Decidable c] {m x y : MF}
    (h : m ∈ (if c then [x, y] else [])) : c ∧ (m = x ∨ m = y) := by
  split at h
  · refine ⟨by assumption, ?_⟩
    rcases List.mem_cons.mp h with h1 | h1
    · exact Or.inl h1
    · exact Or.inr (List.mem_singleton.mp h1)
  · exact absurd h (List.not_mem_nil m)

/-- A well-formed entry of type `date` matches `YYYY-MM-DD`. -/
lemma wfMF_date_val (m : MF) (ht : m.type = "date") (h : wfMF m) : isYMD m.value = true := by
  unfold wfMF at h
  rw [ht] at h
  exact h

/-- Every `date` entry of the current intake batch is the `dob` entry,
carries `p.dob` verbatim, and was guarded by `nonBlank` and `isYMD`. -/
lemma buildIntakeMfs_date (p : IntakePayload) (owner : String) (s d c : Option String) :
    ∀ m ∈ buildIntakeMfs p owner s d c, m.type = "date" →
      m.key = "dob" ∧ m.value = jsStr p.dob ∧ isYMD m.value = true ∧ nonBlank p.dob = true := by
  intro m hm ht
  unfold buildIntakeMfs at hm
  simp only [List.mem_append] at hm
  rcases hm with ((((((((((h | h) | h) | h) | h) | h) | h) | h) | h) | h) | h) | h
  · rcases mem_guard_one h with ⟨hc, rfl⟩
    exact ⟨rfl, rfl, by simpa using hc.2, by simpa using hc.1⟩
  · rcases mem_guard_one h with ⟨hc, rfl⟩
    simp [mkRMF] at ht
  · rw [List.mem_singleton] at h
    subst h
    simp [mkRMF] at ht
  · rw [List.mem_singleton] at h
    subst h
    simp [mkRMF] at ht
  · rcases mem_guard_one h with ⟨hc, rfl⟩
    simp [mkRMF] at ht
  · rcases mem_guard_one h with ⟨hc, rfl⟩
    simp [mkRMF] at ht
  · rcases mem_guard_one h with ⟨hc, rfl⟩
    simp [mkRMF] at ht
  · rcases mem_guard_two h with ⟨hc, rfl | rfl⟩ <;> simp [mkRMF] at ht
  · rcases mem_guard_two h with ⟨hc, rfl | rfl⟩ <;> simp [mkRMF] at ht
  · rcases hg : jsOptStr s with _ | g
    · rw [hg] at h
      exact absurd h (List.not_mem_nil m)
    · rw [hg] at h
      rw [List.mem_singleton] at h
      subst h
      simp [mkRMF] at ht
  · rcases hg : jsOptStr d with _ | g
    · rw [hg] at h
      exact absurd h (List.not_mem_nil m)
    · rw [hg] at h
      rw [List.mem_singleton] at h
      subst h
      simp [mkRMF] at ht
  · rcases hg : jsOptStr c with _ | g
    · rw [hg] at h
      exact absurd h (List.not_mem_nil m)
    · rw [hg] at h
      rw [List.mem_singleton] at h
      subst h
      simp [mkRMF] at ht

/-- Counterexample to C5 as stated: the earlier intake revision sends
`dob` as a `date` metafield unconditionally — with the malformed source
`"13/2024"` the bad value is in the write batch, not omitted. -/
theorem legacy_dob_sent_unvalidated_counterexample :
    isYMD "13/2024" = false ∧
    mkRMF "gid://shopify/Customer/1" "dob" "date" "13/2024" ∈
      legacyIntakeMfs fxLegacyBadDob "gid://shopify/Customer/1" none :=
  ⟨by decide, by decide⟩

/-- C5 (amended).  In the order webhook (`pushDT` and the order batch) and
in the current intake revision, a `date`-typed metafield is emitted only
when the source string matches `YYYY-MM-DD`, and a non-matching source is
omitted; the earlier intake revision, however, sends `p.dob || ''` as the
`date` value unconditionally. -/
theorem date_metafields_validated_in_current_handlers :
    (∀ (arr : List MF) (o k v : String), ∀ m ∈ pushDT arr o k v,
      m ∈ arr ∨ (m.type = "date" ∧ isYMD m.value = true)) ∧
    (∀ (o : Order) (mfs : List MF), buildOrderMfs o = .ok mfs →
      ∀ m ∈ mfs, m.type = "date" → isYMD m.value = true) ∧
    (∀ (p : IntakePayload) (owner : String) (s d c : Option String),
      ∀ m ∈ buildIntakeMfs p owner s d c, m.type = "date" →
        m.key = "dob" ∧ m.value = jsStr p.dob ∧ isYMD m.value = true ∧ nonBlank p.dob = true) ∧
    (∀ (p : IntakePayload) (owner : String) (s d c : Option String),
      nonBlank p.dob = true → isYMD (jsStr p.dob) = true →
        mkRMF owner "dob" "date" (jsStr p.dob) ∈ buildIntakeMfs p owner s d c) ∧
    (∀ (p : IntakePayload) (owner : String) (sid : Option String),
      mkRMF owner "dob" "date" (jsStr p.dob) ∈ legacyIntakeMfs p owner sid) := by
  refine ⟨?_, ?_, buildIntakeMfs_date, ?_, ?_⟩
  · intro arr o k v m hm
    simp only [pushDT] at hm
    split at hm
    · rcases List.mem_append.mp hm with h1 | h1
      · exact Or.inl h1
      · rw [List.mem_singleton] at h1
        subst h1
        exact Or.inr ⟨rfl, by assumption⟩
    · exact Or.inl hm
  · intro o mfs hok m hm ht
    exact wfMF_date_val m ht (buildOrderMfs_wf o mfs hok m hm).2
  · intro p owner s d c h1 h2
    unfold buildIntakeMfs
    rw [if_pos ⟨by simpa using h1, by simpa using h2⟩]
    simp
  · intro p owner sid
    exact List.mem_append.mpr (Or.inl (List.mem_cons_self _ _))

/-- Witness for C5 (amended): a well-formed date is emitted by the current
intake batch. -/
theorem date_metafields_validated_witness :
    mkRMF "o1" "dob" "date" (jsStr fxIntakeNoUp.dob) ∈
      buildIntakeMfs fxIntakeNoUp "o1" none none none :=
  date_metafields_validated_in_current_handlers.2.2.2.1 fxIntakeNoUp "o1" none none none
    (by decide) (by decide)

/-- C6.  A non-numeric `cars_count` (e.g. `"abc"`) is stored on the record
row as the integer 0, and an absent one falls back to 0; in the
integer-typed metafield pusher, a non-integral numeric value (e.g. `3.7`)
is dropped rather than sent, while an absent value coerces to 0 and is
written as `"0"`. -/
theorem cars_count_coercion :
    (∀ c : Option String, jsNumOfUndef c = .nan → recordCars c = .fin 0 0) ∧
    recordCars (some "abc") = .fin 0 0 ∧
    recordCars none = .fin 0 0 ∧
    (∀ (st : RecState) (p : RecPayload) (t : Nat) (row : RecordRow),
      (recordPut st p t).2.2 = some row → row.cars_count = recordCars p.cars_count) ∧
    (∀ (arr : List MF) (o k : String) (n : Option String),
      (jsNumOfNullable n).isInteger = false → pushNI arr o k n = arr) ∧
    pushNI [] "o" "cars_count" (some "3.7") = [] ∧
    pushNI [] "o" "cars_count" none =
      [⟨"retainer", "o", "cars_count", "number_integer", "0"⟩] := by
  refine ⟨?_, by decide, by decide, ?_, ?_, by decide, by decide⟩
  · intro c h
    unfold recordCars
    rw [h]
  · intro st p t row h
    simp only [recordPut] at h
    split at h
    · exact absurd h (by simp)
    · injection h with h
      subst h
      rfl
  · intro arr o k n h
    simp only [pushNI]
    rw [h]
    simp

/-- Witness for C6 at the concrete inputs named by the spec. -/
theorem cars_count_coercion_witness :
    jsNumOfUndef (some "abc") = .nan ∧
    recordCars (some "abc") = .fin 0 0 ∧
    (jsNumOfNullable (some "3.7")).isInteger = false ∧
    pushNI [] "o" "k" (some "3.7") = [] ∧
    ((recordPut fxRecState fxRecPayload 77).2.2.get (by decide)).cars_count =
      recordCars fxRecPayload.cars_count :=
  ⟨by decide, cars_count_coercion.1 (some "abc") (by decide), by decide,
   cars_count_coercion.2.2.2.2.1 [] "o" "k" (some "3.7") (by decide),
   cars_count_coercion.2.2.2.1 fxRecState fxRecPayload 77 _
     (Option.some_get (by decide)).symm⟩

/-- `find?` skips a prefix in which nothing matches. -/
lemma find?_append_of_none {α : Type} (l1 l2 : List α) (p : α → Bool)
    (h : l1.find? p = none) : (l1 ++ l2).find? p = l2.find? p := by
  induction l1 with
  | nil => rfl
  | cons a t ih =>
    cases hpa : p a with
    | true =>
      rw [List.find?_cons_of_pos _ hpa] at h
      exact absurd h (by simp)
    | false =>
      rw [List.find?_cons_of_neg _ (by simp [hpa])] at h
      rw [List.cons_append, List.find?_cons_of_neg _ (by simp [hpa])]
      exact ih h

/-- The upserted row is in the table. -/
lemma mem_upsertRow (rows : List RecordRow) (row : RecordRow) : row ∈ upsertRow rows row := by
  unfold upsertRow
  split
  · rename_i hany
    rcases List.any_eq_true.mp hany with ⟨r, hr, he⟩
    refine List.mem_map.mpr ⟨r, hr, ?_⟩
    rw [if_pos (of_decide_eq_true he)]
  · exact List.mem_append.mpr (Or.inr (List.mem_singleton.mpr rfl))

/-- A blocked or blank upload leaves the remote state untouched and
produces no file id and no remote calls. -/
lemma optUpload_gate (st : ShopState) (o : Option String)
    (h : ∀ u, o = some u → (u = "" ∨ strStartsWith u "data:" = false)) :
    optUpload st o = (st, none, []) := by
  cases ho : o with
  | none => rfl
  | some u =>
    show (if u ≠ "" then uploadDataUrlToFiles st u else (st, none, [])) = (st, none, [])
    by_cases hu : u = ""
    · rw [if_neg (fun hne => hne hu)]
    · rcases h u ho with h1 | h1
      · exact absurd h1 hu
      · rw [if_pos hu]
        unfold uploadDataUrlToFiles
        rw [if_pos (by simp [h1])]

/-- With all three uploads blocked or absent, the handler tail still
succeeds and leaves the file store untouched. -/
lemma intakeAfterCustomer_gate (st : ShopState) (p : IntakePayload) (id : Nat)
    (muts : List String)
    (hs : ∀ u, p.signature_data_url = some u → (u = "" ∨ strStartsWith u "data:" = false))
    (h2 : p.license_data_url = none) (h3 : p.insurance_card_data_url = none) :
    (intakeAfterCustomer st p id muts).status = 200 ∧
    (intakeAfterCustomer st p id muts).ok = true ∧
    (intakeAfterCustomer st p id muts).state.files = st.files := by
  simp only [intakeAfterCustomer]
  rw [optUpload_gate st _ hs]
  simp only [h2, h3]
  split <;> simp [optUpload]

/-- C7.  A signature data-URL that does not carry the expected prefix
(`data:image/png` for the record backend, `data:` for the generic
uploader) yields no file id / a null URL without any storage call, and the
handler still completes: the record upsert goes through with a null
`signature_url` and answers `200 ok`, and the intake handler still answers
`200 ok` with the file store untouched. -/
theorem signature_gating_nonblocking :
    (∀ (st : RecState) (u email : String) (t : Nat),
      strStartsWith u "data:image/png" = false → saveSignature st u email t = (st, none)) ∧
    (∀ (st : ShopState) (u : String),
      strStartsWith u "data:" = false → uploadDataUrlToFiles st u = (st, none, [])) ∧
    (∀ (st : RecState) (p : RecPayload) (t : Nat) (u : String),
      strLower (jsTrim (jsStr p.email)) ≠ "" →
      jsOptStr p.signature_url = none →
      p.signature_data_url = some u → u ≠ "" →
      strStartsWith u "data:image/png" = false →
      (recordPut st p t).2.1 = ⟨200, true, none⟩ ∧
      (∃ row, (recordPut st p t).2.2 = some row ∧ row.signature_url = none ∧
        row ∈ (recordPut st p t).1.rows) ∧
      (recordPut st p t).1.sigPaths = st.sigPaths) ∧
    (∀ (st : ShopState) (p : IntakePayload) (u : String),
      p.signature_data_url = some u → strStartsWith u "data:" = false →
      p.license_data_url = none → p.insurance_card_data_url = none →
      isEmail (normEmail p) = true →
      isPhoneLoose (jsTrim (jsStr p.phone)) = true →
      ((findCustomer st (normEmail p)).isSome = true ∨
        jsTrim (jsStr p.password) ≠ "") →
      (intakeUpsert st p).status = 200 ∧ (intakeUpsert st p).ok = true ∧
      (intakeUpsert st p).state.files = st.files) := by
  refine ⟨?_, ?_, ?_, ?_⟩
  · intro st u email t h
    unfold saveSignature
    rw [if_pos (by simp [h])]
  · intro st u h
    unfold uploadDataUrlToFiles
    rw [if_pos (by simp [h])]
  · intro st p t u hemail hpre hsig hune hstart
    have hsave : saveSignature st u (strLower (jsTrim (jsStr p.email))) t = (st, none) := by
      unfold saveSignature
      rw [if_pos (by simp [hstart])]
    simp only [recordPut]
    rw [if_neg hemail]
    simp only [hpre, hsig]
    rw [if_pos hune, hsave]
    exact ⟨by trivial, ⟨_, by trivial, by trivial, mem_upsertRow _ _⟩, by trivial⟩
  · intro st p u hsig hstart hlic hins hem hph hfound
    have hs : ∀ v, p.signature_data_url = some v → (v = "" ∨ strStartsWith v "data:" = false) := by
      intro v hv
      rw [hsig] at hv
      injection hv with hv
      subst hv
      exact Or.inr hstart
    simp only [intakeUpsert]
    rw [if_neg (by simp [hem]), if_neg (by simp [hph])]
    cases hf : findCustomer st (normEmail p) with
    | some c =>
      exact intakeAfterCustomer_gate _ p c.id _ hs hlic hins
    | none =>
      have hpw : jsTrim (jsStr p.password) ≠ "" := by
        rcases hfound with h | h
        · rw [hf] at h
          exact absurd h (by simp)
        · exact h
      rw [if_neg hpw]
      have hfind2 : findCustomer
          { st with customers := st.customers ++ [newCustomerOf st p], nextId := st.nextId + 1 }
          (normEmail p) = some (newCustomerOf st p) := by
        unfold findCustomer at hf ⊢
        rw [find?_append_of_none _ _ _ hf]
        simp [newCustomerOf]
      rw [hfind2]
      exact intakeAfterCustomer_gate _ p _ _ hs hlic hins

/-- Witness for C7 at a concrete record payload (JPEG data-URL) and a
concrete intake payload (plain http URL). -/
theorem signature_gating_nonblocking_witness :
    ((recordPut fxRecState fxRecPayload 77).2.1 = ⟨200, true, none⟩ ∧
      (recordPut fxRecState fxRecPayload 77).1.sigPaths = fxRecState.sigPaths) ∧
    ((intakeUpsert fxShop fxIntakeBadSig).status = 200 ∧
      (intakeUpsert fxShop fxIntakeBadSig).ok = true ∧
      (intakeUpsert fxShop fxIntakeBadSig).state.files = fxShop.files) := by
  have h3 := (signature_gating_nonblocking.2.2.1 fxRecState fxRecPayload 77
    "data:image/jpeg;base64,AAAA" (by decide) (by decide) (by decide) (by decide) (by decide))
  have h4 := (signature_gating_nonblocking.2.2.2 fxShop fxIntakeBadSig
    "http://x/y.png" (by decide) (by decide) (by decide) (by decide) (by decide) (by decide)
    (Or.inl (by decide)))
  exact ⟨⟨h3.1, h3.2.2⟩, h4⟩

/-- C8.  A validation failure — malformed/missing email, phone shorter than
10 digit/plus characters, or a missing password when a new account must be
created — makes the intake handler answer HTTP 400 with `ok:false`, with
the remote state untouched and no remote mutation attempted (`muts = []`);
the customer-create endpoint's own presence validation likewise answers
400 before its mutation. -/
theorem validation_errors_400_before_mutation :
    (∀ (st : ShopState) (p : IntakePayload),
      isEmail (normEmail p) = false →
        intakeUpsert st p = ⟨st, 400, false, some "invalid or missing email", []⟩) ∧
    (∀ (st : ShopState) (p : IntakePayload),
      isEmail (normEmail p) = true →
      isPhoneLoose (jsTrim (jsStr p.phone)) = false →
        intakeUpsert st p = ⟨st, 400, false, some "invalid or missing phone", []⟩) ∧
    (∀ (st : ShopState) (p : IntakePayload),
      isEmail (normEmail p) = true →
      isPhoneLoose (jsTrim (jsStr p.phone)) = true →
      findCustomer st (normEmail p) = none →
      jsTrim (jsStr p.password) = "" →
        intakeUpsert st p = ⟨st, 400, false, some "missing password", []⟩) ∧
    (∀ p : IntakePayload,
      (strLower (jsTrim (jsStr p.email)) = "" ∨ jsTrim (jsStr p.password) = "") →
        customerCreateHandler p = (400, false, [])) := by
  refine ⟨?_, ?_, ?_, ?_⟩
  · intro st p h
    simp only [intakeUpsert]
    rw [if_pos (by simp [h])]
  · intro st p he hp
    simp only [intakeUpsert]
    rw [if_neg (by simp [he]), if_pos (by simp [hp])]
  · intro st p he hp hf hpw
    simp only [intakeUpsert]
    rw [if_neg (by simp [he]), if_neg (by simp [hp])]
    simp only [hf]
    rw [if_pos hpw]
  · intro p h
    unfold customerCreateHandler
    rw [if_pos h]

/-- Witness for C8 at a malformed email (`foo`), a five-digit phone, a
fresh email with no password, and a customer-create call without a
password. -/
theorem validation_errors_400_before_mutation_witness :
    ((intakeUpsert fxShop fxIntakeBadEmail).status = 400 ∧
      (intakeUpsert fxShop fxIntakeBadEmail).ok = false ∧
      (intakeUpsert fxShop fxIntakeBadEmail).muts = []) ∧
    ((intakeUpsert fxShop fxIntakeBadPhone).status = 400 ∧
      (intakeUpsert fxShop fxIntakeBadPhone).muts = []) ∧
    ((intakeUpsert fxShop fxIntakeNoPw).status = 400 ∧
      (intakeUpsert fxShop fxIntakeNoPw).muts = []) ∧
    customerCreateHandler fxIntakeNoPw = (400, false, []) := by
  have h1 := validation_errors_400_before_mutation.1 fxShop fxIntakeBadEmail (by decide)
  have h2 := validation_errors_400_before_mutation.2.1 fxShop fxIntakeBadPhone
    (by decide) (by decide)
  have h3 := validation_errors_400_before_mutation.2.2.1 fxShop fxIntakeNoPw
    (by decide) (by decide) (by decide) (by decide)
  have h4 := validation_errors_400_before_mutation.2.2.2 fxIntakeNoPw (Or.inr (by decide))
  exact ⟨⟨by rw [h1], by rw [h1], by rw [h1]⟩, ⟨by rw [h2], by rw [h2]⟩,
         ⟨by rw [h3], by rw [h3]⟩, h4⟩

/-- Every entry of the current intake batch is one of the fixed keys, and
each optional key occurs only when its source guard held. -/
lemma buildIntakeMfs_keys (p : IntakePayload) (owner : String) (s d c : Option String) :
    ∀ m ∈ buildIntakeMfs p owner s d c,
      m.key = "has_bi" ∨ m.key = "cars_count" ∨
      (m.key = "dob" ∧ nonBlank p.dob = true) ∨
      (m.key = "insurer" ∧ nonBlank p.insurer = true) ∨
      (m.key = "vehicles_list" ∧ vehiclesListOf p ≠ []) ∨
      (m.key = "household_list" ∧ householdListOf p ≠ []) ∨
      (m.key = "intake_notes" ∧ nonBlank p.intake_notes = true) ∨
      ((m.key = "last_retainer_plan" ∨ m.key = "current_retainer_plan") ∧
        nonBlank p.retainer_plan = true) ∨
      ((m.key = "last_retainer_term" ∨ m.key = "current_retainer_term") ∧
        nonBlank p.retainer_term = true) ∨
      (m.key = "signature" ∧ jsOptStr s ≠ none) ∨
      (m.key = "drivers_license" ∧ jsOptStr d ≠ none) ∨
      (m.key = "car_insurance" ∧ jsOptStr c ≠ none) := by
  intro m hm
  unfold buildIntakeMfs at hm
  simp only [List.mem_append] at hm
  rcases hm with ((((((((((h | h) | h) | h) | h) | h) | h) | h) | h) | h) | h) | h
  · rcases mem_guard_one h with ⟨hc, rfl⟩
    exact Or.inr (Or.inr (Or.inl ⟨rfl, by simpa using hc.1⟩))
  · rcases mem_guard_one h with ⟨hc, rfl⟩
    exact Or.inr (Or.inr (Or.inr (Or.inl ⟨rfl, by simpa using hc⟩)))
  · rw [List.mem_singleton] at h
    subst h
    exact Or.inl rfl
  · rw [List.mem_singleton] at h
    subst h
    exact Or.inr (Or.inl rfl)
  · rcases mem_guard_one h with ⟨hc, rfl⟩
    exact Or.inr (Or.inr (Or.inr (Or.inr (Or.inl ⟨rfl, by simpa using hc⟩))))
  · rcases mem_guard_one h with ⟨hc, rfl⟩
    exact Or.inr (Or.inr (Or.inr (Or.inr (Or.inr (Or.inl ⟨rfl, by simpa using hc⟩)))))
  · rcases mem_guard_one h with ⟨hc, rfl⟩
    exact Or.inr (Or.inr (Or.inr (Or.inr (Or.inr (Or.inr (Or.inl ⟨rfl, by simpa using hc⟩))))))
  · rcases mem_guard_two h with ⟨hc, rfl | rfl⟩
    · exact Or.inr (Or.inr (Or.inr (Or.inr (Or.inr (Or.inr (Or.inr (Or.inl
        ⟨Or.inl rfl, by simpa using hc⟩)))))))
    · exact Or.inr (Or.inr (Or.inr (Or.inr (Or.inr (Or.inr (Or.inr (Or.inl
        ⟨Or.inr rfl, by simpa using hc⟩)))))))
  · rcases mem_guard_two h with ⟨hc, rfl | rfl⟩
    · exact Or.inr (Or.inr (Or.inr (Or.inr (Or.inr (Or.inr (Or.inr (Or.inr (Or.inl
        ⟨Or.inl rfl, by simpa using hc⟩))))))))
    · exact Or.inr (Or.inr (Or.inr (Or.inr (Or.inr (Or.inr (Or.inr (Or.inr (Or.inl
        ⟨Or.inr rfl, by simpa using hc⟩))))))))
  · rcases hg : jsOptStr s with _ | g
    · rw [hg] at h
      exact absurd h (List.not_mem_nil m)
    · rw [hg] at h
      rw [List.mem_singleton] at h
      subst h
      exact Or.inr (Or.inr (Or.inr (Or.inr (Or.inr (Or.inr (Or.inr (Or.inr (Or.inr (Or.inl
        ⟨rfl, by simp [hg]⟩)))))))))
  · rcases hg : jsOptStr d with _ | g
    · rw [hg] at h
      exact absurd h (List.not_mem_nil m)
    · rw [hg] at h
      rw [List.mem_singleton] at h
      subst h
      exact Or.inr (Or.inr (Or.inr (Or.inr (Or.inr (Or.inr (Or.inr (Or.inr (Or.inr (Or.inr
        (Or.inl ⟨rfl, by simp [hg]⟩))))))))))
  · rcases hg : jsOptStr c with _ | g
    · rw [hg] at h
      exact absurd h (List.not_mem_nil m)
    · rw [hg] at h
      rw [List.mem_singleton] at h
      subst h
      exact Or.inr (Or.inr (Or.inr (Or.inr (Or.inr (Or.inr (Or.inr (Or.inr (Or.inr (Or.inr
        (Or.inr ⟨rfl, by simp [hg]⟩))))))))))

/-- C10.  The current intake revision writes `has_bi` and `cars_count` on
every batch, unconditionally — a payload omitting them (or with falsy
`has_bi`) writes `'false'` and `'0'`, overwriting the previously stored
values — while every other optional key appears only when its source guard
held, so blank sources leave the previously stored value untouched
(demonstrated on a state with stored `dob`, `has_bi`, `cars_count`). -/
theorem has_bi_cars_count_unconditional :
    (∀ (p : IntakePayload) (owner : String) (s d c : Option String),
      mkRMF owner "has_bi" "boolean" (if p.has_bi then "true" else "false") ∈
        buildIntakeMfs p owner s d c ∧
      mkRMF owner "cars_count" "number_integer" (p.cars_count.getD "0") ∈
        buildIntakeMfs p owner s d c) ∧
    (∀ (p : IntakePayload) (owner : String) (s d c : Option String),
      ∀ m ∈ buildIntakeMfs p owner s d c,
        m.key = "has_bi" ∨ m.key = "cars_count" ∨
        (m.key = "dob" ∧ nonBlank p.dob = true) ∨
        (m.key = "insurer" ∧ nonBlank p.insurer = true) ∨
        (m.key = "vehicles_list" ∧ vehiclesListOf p ≠ []) ∨
        (m.key = "household_list" ∧ householdListOf p ≠ []) ∨
        (m.key = "intake_notes" ∧ nonBlank p.intake_notes = true) ∨
        ((m.key = "last_retainer_plan" ∨ m.key = "current_retainer_plan") ∧
          nonBlank p.retainer_plan = true) ∨
        ((m.key = "last_retainer_term" ∨ m.key = "current_retainer_term") ∧
          nonBlank p.retainer_term = true) ∨
        (m.key = "signature" ∧ jsOptStr s ≠ none) ∨
        (m.key = "drivers_license" ∧ jsOptStr d ≠ none) ∨
        (m.key = "car_insurance" ∧ jsOptStr c ≠ none)) ∧
    ((intakeUpsert fxShopBI fxIntakeBlank).state.metafields
        (customerGidStr 1) "retainer" "has_bi" = some ("boolean", "false") ∧
      (intakeUpsert fxShopBI fxIntakeBlank).state.metafields
        (customerGidStr 1) "retainer" "cars_count" = some ("number_integer", "0") ∧
      (intakeUpsert fxShopBI fxIntakeBlank).state.metafields
        (customerGidStr 1) "retainer" "dob" =
        fxShopBI.metafields (customerGidStr 1) "retainer" "dob") := by
  refine ⟨?_, buildIntakeMfs_keys, by decide, by decide, by decide⟩
  intro p owner s d c
  constructor
  · unfold buildIntakeMfs
    simp [List.mem_append]
  · unfold buildIntakeMfs
    simp [List.mem_append]

/-- Witness for C10: the blank payload's batch is exactly the two default
entries, and the state facts above hold at the fixture. -/
theorem has_bi_cars_count_unconditional_witness :
    (mkRMF "o1" "has_bi" "boolean" "false" ∈
      buildIntakeMfs fxIntakeBlank "o1" none none none) ∧
    buildIntakeMfs fxIntakeBlank "o1" none none none =
      [mkRMF "o1" "has_bi" "boolean" "false",
       mkRMF "o1" "cars_count" "number_integer" "0"] :=
  ⟨(has_bi_cars_count_unconditional.1 fxIntakeBlank "o1" none none none).1, by decide⟩

/-- Evaluating a batch application of `metafieldsSet` at a key: the batch's
own last assignment wins, otherwise the prior store value. -/
lemma applyMfs_eval (L : List MF) (m : String → String → String → Option (String × String))
    (o n k : String) :
    applyMfs m L o n k =
      match lookupBatch L o n k with
      | some tv => some tv
      | none => m o n k := by
  induction L generalizing m with
  | nil => rfl
  | cons mf rest ih =>
    have hstep : lookupBatch (mf :: rest) o n k =
        (match lookupBatch rest o n k with
         | some tv => some tv
         | none =>
           if o = mf.ownerId ∧ n = mf.ns ∧ k = mf.key then some (mf.type, mf.value)
           else none) := rfl
    show applyMfs (setMF m mf) rest o n k = _
    rw [ih, hstep]
    cases hlb : lookupBatch rest o n k with
    | some tv => rfl
    | none =>
      show setMF m mf o n k = _
      unfold setMF
      by_cases hc : o = mf.ownerId ∧ n = mf.ns ∧ k = mf.key
      · rw [if_pos hc, if_pos hc]
      · rw [if_neg hc, if_neg hc]

/-- Applying the same batch twice equals applying it once. -/
lemma applyMfs_idem (L : List MF) (m : String → String → String → Option (String × String)) :
    applyMfs (applyMfs m L) L = applyMfs m L := by
  funext o n k
  rw [applyMfs_eval, applyMfs_eval]
  cases lookupBatch L o n k with
  | some tv => rfl
  | none => rfl

/-- `customerUpdate` with a fixed input is idempotent on a customer. -/
lemma applyCustomerInput_idem (inp : CustomerInput) (c : Customer) :
    applyCustomerInput inp (applyCustomerInput inp c) = applyCustomerInput inp c := by
  cases h1 : inp.firstName <;> cases h2 : inp.lastName <;> cases h3 : inp.phone <;>
    cases h4 : inp.addresses <;> simp [applyCustomerInput, h1, h2, h3, h4]

/-- The per-customer update step of `updateCustomerById` is idempotent. -/
lemma updStep_idem (inp : CustomerInput) (tid : Nat) (c : Customer) :
    (if (if c.id = tid then applyCustomerInput inp c else c).id = tid then
       applyCustomerInput inp (if c.id = tid then applyCustomerInput inp c else c)
     else (if c.id = tid then applyCustomerInput inp c else c)) =
    (if c.id = tid then applyCustomerInput inp c else c) := by
  by_cases hc : c.id = tid
  · rw [if_pos hc, if_pos ((rfl : (applyCustomerInput inp c).id = c.id).trans hc),
        applyCustomerInput_idem]
  · rw [if_neg hc, if_neg hc]

/-- Mapping the update step twice equals mapping it once. -/
lemma map_upd_idem (l : List Customer) (inp : CustomerInput) (tid : Nat) :
    (l.map (fun c => if c.id = tid then applyCustomerInput inp c else c)).map
      (fun c => if c.id = tid then applyCustomerInput inp c else c) =
    l.map (fun c => if c.id = tid then applyCustomerInput inp c else c) := by
  rw [List.map_map]
  exact List.map_congr_left (fun c _ => updStep_idem inp tid c)

/-- The first email match in an updated customer list keeps the updated id,
provided the pre-update first match (if any) had that id. -/
lemma find?_mapped_id (l : List Customer) (inp : CustomerInput) (tid : Nat)
    (hl : l.find? (fun c => c.email == inp.email) = none ∨
      ∃ c0, l.find? (fun c => c.email == inp.email) = some c0 ∧ c0.id = tid) :
    ∀ res, (l.map (fun c => if c.id = tid then applyCustomerInput inp c else c)).find?
        (fun c => c.email == inp.email) = some res → res.id = tid := by
  induction l with
  | nil =>
    intro res h
    exact absurd h (by simp)
  | cons a t ih =>
    intro res h
    by_cases ha : a.id = tid
    · rw [List.map_cons, if_pos ha,
          List.find?_cons_of_pos _ (by simp [applyCustomerInput])] at h
      injection h with h
      subst h
      exact ha
    · rw [List.map_cons, if_neg ha] at h
      cases hae : (a.email == inp.email) with
      | false =>
        rw [List.find?_cons_of_neg _ (by simp [hae])] at h
        refine ih ?_ res h
        rcases hl with h1 | ⟨c0, h1, h2⟩
        · rw [List.find?_cons_of_neg _ (by simp [hae])] at h1
          exact Or.inl h1
        · rw [List.find?_cons_of_neg _ (by simp [hae])] at h1
          exact Or.inr ⟨c0, h1, h2⟩
      | true =>
        exfalso
        rcases hl with h1 | ⟨c0, h1, h2⟩
        · rw [List.find?_cons_of_pos _ (by simp [hae])] at h1
          exact absurd h1 (by simp)
        · rw [List.find?_cons_of_pos _ (by simp [hae])] at h1
          injection h1 with h1
          subst h1
          exact ha h2
/-- If some customer in the list has the updated id, the updated list has
an email match. -/
lemma find?_mapped_some (l : List Customer) (inp : CustomerInput) (tid : Nat)
    (h : ∃ c0 ∈ l, c0.id = tid) :
    ∃ res, (l.map (fun c => if c.id = tid then applyCustomerInput inp c else c)).find?
        (fun c => c.email == inp.email) = some res := by
  rcases h with ⟨c0, hc0, hid⟩
  have hmem : applyCustomerInput inp c0 ∈
      l.map (fun c => if c.id = tid then applyCustomerInput inp c else c) :=
    List.mem_map.mpr ⟨c0, hc0, by rw [if_pos hid]⟩
  have hsome : ((l.map (fun c => if c.id = tid then applyCustomerInput inp c else c)).find?
      (fun c => c.email == inp.email)).isSome = true :=
    List.find?_isSome.mpr ⟨_, hmem, by simp [applyCustomerInput]⟩
  exact Option.isSome_iff_exists.mp hsome

/-- The unconditional `has_bi` entry is always in the current intake
batch. -/
lemma hasbi_mem (p : IntakePayload) (owner : String) (s d c : Option String) :
    mkRMF owner "has_bi" "boolean" (if p.has_bi then "true" else "false") ∈
      buildIntakeMfs p owner s d c := by
  unfold buildIntakeMfs
  simp [List.mem_append]

/-- The current intake batch is never empty. -/
lemma buildIntakeMfs_ne_nil (p : IntakePayload) (owner : String) (s d c : Option String) :
    buildIntakeMfs p owner s d c ≠ [] :=
  List.ne_nil_of_mem (hasbi_mem p owner s d c)

/-- With no uploads, the handler tail writes the batch and succeeds. -/
lemma intakeAfterCustomer_noUp (st : ShopState) (p : IntakePayload) (id : Nat)
    (muts : List String) (h1 : p.signature_data_url = none)
    (h2 : p.license_data_url = none) (h3 : p.insurance_card_data_url = none) :
    intakeAfterCustomer st p id muts =
      ⟨{ st with metafields :=
          applyMfs st.metafields (buildIntakeMfs p (customerGidStr id) none none none) },
       200, true, none, muts ++ ["metafieldsSet"]⟩ := by
  simp only [intakeAfterCustomer, h1, h2, h3, optUpload]
  simp [buildIntakeMfs_ne_nil p (customerGidStr id) none none none]

/-- Failing email validation: 400, state and mutations untouched. -/
lemma intakeUpsert_badEmail (st : ShopState) (p : IntakePayload)
    (h : isEmail (normEmail p) = false) :
    intakeUpsert st p = ⟨st, 400, false, some "invalid or missing email", []⟩ := by
  simp only [intakeUpsert]
  rw [if_pos (by simp [h])]

/-- Failing phone validation: 400, state and mutations untouched. -/
lemma intakeUpsert_badPhone (st : ShopState) (p : IntakePayload)
    (he : isEmail (normEmail p) = true) (hp : isPhoneLoose (jsTrim (jsStr p.phone)) = false) :
    intakeUpsert st p = ⟨st, 400, false, some "invalid or missing phone", []⟩ := by
  simp only [intakeUpsert]
  rw [if_neg (by simp [he]), if_pos (by simp [hp])]

/-- Missing password on the create path: 400, state and mutations
untouched. -/
lemma intakeUpsert_noPw (st : ShopState) (p : IntakePayload)
    (he : isEmail (normEmail p) = true) (hp : isPhoneLoose (jsTrim (jsStr p.phone)) = true)
    (hf : findCustomer st (normEmail p) = none) (hpw : jsTrim (jsStr p.password) = "") :
    intakeUpsert st p = ⟨st, 400, false, some "missing password", []⟩ := by
  simp only [intakeUpsert]
  rw [if_neg (by simp [he]), if_neg (by simp [hp])]
  simp only [hf]
  rw [if_pos hpw]

/-- The update path: lookup hit, Admin update, then the handler tail. -/
lemma intakeUpsert_found (st : ShopState) (p : IntakePayload) (c : Customer)
    (he : isEmail (normEmail p) = true) (hp : isPhoneLoose (jsTrim (jsStr p.phone)) = true)
    (hf : findCustomer st (normEmail p) = some c) :
    intakeUpsert st p =
      intakeAfterCustomer (updateCustomerById st c.id (baseInputOf p)) p c.id
        ["customerUpdate"] := by
  simp only [intakeUpsert]
  rw [if_neg (by simp [he]), if_neg (by simp [hp])]
  simp only [hf]

/-- The create path: lookup miss, Storefront create, re-lookup (which finds
the new customer), Admin update, then the handler tail. -/
lemma intakeUpsert_create (st : ShopState) (p : IntakePayload)
    (he : isEmail (normEmail p) = true) (hp : isPhoneLoose (jsTrim (jsStr p.phone)) = true)
    (hf : findCustomer st (normEmail p) = none) (hpw : jsTrim (jsStr p.password) ≠ "") :
    intakeUpsert st p =
      intakeAfterCustomer
        (updateCustomerById
          { st with customers := st.customers ++ [newCustomerOf st p], nextId := st.nextId + 1 }
          (newCustomerOf st p).id (baseInputOf p))
        p (newCustomerOf st p).id ["sfCustomerCreate", "customerUpdate"] := by
  have hfind2 : findCustomer
      { st with customers := st.customers ++ [newCustomerOf st p], nextId := st.nextId + 1 }
      (normEmail p) = some (newCustomerOf st p) := by
    unfold findCustomer at hf ⊢
    rw [find?_append_of_none _ _ _ hf]
    simp [newCustomerOf]
  simp only [intakeUpsert]
  rw [if_neg (by simp [he]), if_neg (by simp [hp])]
  simp only [hf]
  rw [if_neg hpw]
  simp only [hfind2]

/-- Re-running `customerUpdate` with the same input (after an intervening
metafield write) is a state no-op. -/
lemma updateCustomerById_twice (st : ShopState) (tid : Nat) (inp : CustomerInput)
    (M : String → String → String → Option (String × String)) :
    updateCustomerById { updateCustomerById st tid inp with metafields := M } tid inp
      = { updateCustomerById st tid inp with metafields := M } := by
  show ShopState.mk
      ((st.customers.map (fun c => if c.id = tid then applyCustomerInput inp c else c)).map
        (fun c => if c.id = tid then applyCustomerInput inp c else c))
      M st.files st.nextId =
    ShopState.mk
      (st.customers.map (fun c => if c.id = tid then applyCustomerInput inp c else c))
      M st.files st.nextId
  rw [map_upd_idem]

/-- After a successful create, the re-lookup finds the new customer. -/
lemma findCustomer_after_create (st : ShopState) (p : IntakePayload)
    (hf : findCustomer st (normEmail p) = none) :
    findCustomer
      { st with customers := st.customers ++ [newCustomerOf st p], nextId := st.nextId + 1 }
      (normEmail p) = some (newCustomerOf st p) := by
  unfold findCustomer at hf ⊢
  rw [find?_append_of_none _ _ _ hf]
  simp [newCustomerOf]

/-- Running the handler again on the state a successful no-upload run left
behind is a state no-op: the lookup finds the updated customer (with the
same id), the repeated `customerUpdate` rewrites the same values, and the
repeated `metafieldsSet` upserts the same batch. -/
lemma intakeUpsert_second_run (st0 : ShopState) (p : IntakePayload) (tid : Nat)
    (h1 : p.signature_data_url = none) (h2 : p.license_data_url = none)
    (h3 : p.insurance_card_data_url = none)
    (he : isEmail (normEmail p) = true) (hp : isPhoneLoose (jsTrim (jsStr p.phone)) = true)
    (hl : st0.customers.find? (fun c => c.email == (baseInputOf p).email) = none ∨
      ∃ c0, st0.customers.find? (fun c => c.email == (baseInputOf p).email) = some c0 ∧
        c0.id = tid)
    (hmem : ∃ c0 ∈ st0.customers, c0.id = tid) :
    intakeUpsert
      { updateCustomerById st0 tid (baseInputOf p) with
        metafields := applyMfs (updateCustomerById st0 tid (baseInputOf p)).metafields
          (buildIntakeMfs p (customerGidStr tid) none none none) } p =
    ⟨{ updateCustomerById st0 tid (baseInputOf p) with
       metafields := applyMfs (updateCustomerById st0 tid (baseInputOf p)).metafields
         (buildIntakeMfs p (customerGidStr tid) none none none) },
     200, true, none, ["customerUpdate", "metafieldsSet"]⟩ := by
  obtain ⟨res, hres⟩ := find?_mapped_some st0.customers (baseInputOf p) tid hmem
  have hid : res.id = tid := find?_mapped_id st0.customers (baseInputOf p) tid hl res hres
  have hfindS1 : findCustomer
      { updateCustomerById st0 tid (baseInputOf p) with
        metafields := applyMfs (updateCustomerById st0 tid (baseInputOf p)).metafields
          (buildIntakeMfs p (customerGidStr tid) none none none) }
      (normEmail p) = some res := hres
  rw [intakeUpsert_found _ p res he hp hfindS1, hid,
      intakeAfterCustomer_noUp _ p tid _ h1 h2 h3, updateCustomerById_twice]
  have hmf : applyMfs
      ({ updateCustomerById st0 tid (baseInputOf p) with
         metafields := applyMfs (updateCustomerById st0 tid (baseInputOf p)).metafields
           (buildIntakeMfs p (customerGidStr tid) none none none) } : ShopState).metafields
      (buildIntakeMfs p (customerGidStr tid) none none none) =
    applyMfs (updateCustomerById st0 tid (baseInputOf p)).metafields
      (buildIntakeMfs p (customerGidStr tid) none none none) := applyMfs_idem _ _
  rw [hmf]
  rfl

/-- C4 (amended).  For every intake payload that carries no signature,
license or insurance data-URL, running the upsert handler twice against
the same remote state leaves exactly the state of one run: the second run
finds the customer produced by the first run (by normalized email), takes
the update path rather than creating a second customer, and every
metafield write upserts the same keys to the same values, so the second
run is a state no-op with the same status and `ok`. -/
theorem upsert_idempotent_without_uploads :
    ∀ (st : ShopState) (p : IntakePayload),
      p.signature_data_url = none → p.license_data_url = none →
      p.insurance_card_data_url = none →
      (intakeUpsert (intakeUpsert st p).state p).state = (intakeUpsert st p).state ∧
      (intakeUpsert (intakeUpsert st p).state p).status = (intakeUpsert st p).status ∧
      (intakeUpsert (intakeUpsert st p).state p).ok = (intakeUpsert st p).ok ∧
      ((intakeUpsert st p).ok = true →
        ∃ c, findCustomer (intakeUpsert st p).state (normEmail p) = some c) := by
  intro st p h1 h2 h3
  cases he : isEmail (normEmail p) with
  | false =>
    have hr := intakeUpsert_badEmail st p he
    have hrun2 : intakeUpsert (intakeUpsert st p).state p = intakeUpsert st p := by
      rw [hr]
      exact hr
    refine ⟨by rw [hrun2], by rw [hrun2], by rw [hrun2], ?_⟩
    intro hok
    rw [hr] at hok
    exact absurd hok (by simp)
  | true =>
  cases hp : isPhoneLoose (jsTrim (jsStr p.phone)) with
  | false =>
    have hr := intakeUpsert_badPhone st p he hp
    have hrun2 : intakeUpsert (intakeUpsert st p).state p = intakeUpsert st p := by
      rw [hr]
      exact hr
    refine ⟨by rw [hrun2], by rw [hrun2], by rw [hrun2], ?_⟩
    intro hok
    rw [hr] at hok
    exact absurd hok (by simp)
  | true =>
  cases hf : findCustomer st (normEmail p) with
  | some c =>
    have hrun1 : intakeUpsert st p =
        ⟨{ updateCustomerById st c.id (baseInputOf p) with
           metafields := applyMfs (updateCustomerById st c.id (baseInputOf p)).metafields
             (buildIntakeMfs p (customerGidStr c.id) none none none) },
          200, true, none, ["customerUpdate"] ++ ["metafieldsSet"]⟩ :=
      (intakeUpsert_found st p c he hp hf).trans
        (intakeAfterCustomer_noUp _ p c.id _ h1 h2 h3)
    have hsecond := intakeUpsert_second_run st p c.id h1 h2 h3 he hp
      (Or.inr ⟨c, hf, rfl⟩) ⟨c, List.mem_of_find?_eq_some hf, rfl⟩
    refine ⟨?_, ?_, ?_, ?_⟩
    · rw [hrun1]
      exact congrArg IntakeResult.state hsecond
    · rw [hrun1]
      exact congrArg IntakeResult.status hsecond
    · rw [hrun1]
      exact congrArg IntakeResult.ok hsecond
    · intro _
      obtain ⟨res, hres⟩ := find?_mapped_some st.customers (baseInputOf p) c.id
        ⟨c, List.mem_of_find?_eq_some hf, rfl⟩
      refine ⟨res, ?_⟩
      rw [hrun1]
      exact hres
  | none =>
    cases hpw : decide (jsTrim (jsStr p.password) = "") with
    | true =>
      have hr := intakeUpsert_noPw st p he hp hf (of_decide_eq_true hpw)
      have hrun2 : intakeUpsert (intakeUpsert st p).state p = intakeUpsert st p := by
        rw [hr]
        exact hr
      refine ⟨by rw [hrun2], by rw [hrun2], by rw [hrun2], ?_⟩
      intro hok
      rw [hr] at hok
      exact absurd hok (by simp)
    | false =>
      have hpw' : jsTrim (jsStr p.password) ≠ "" := of_decide_eq_false hpw
      have hrun1 : intakeUpsert st p =
          ⟨{ updateCustomerById
               { st with customers := st.customers ++ [newCustomerOf st p], nextId := st.nextId + 1 }
               (newCustomerOf st p).id (baseInputOf p) with
             metafields := applyMfs
               (updateCustomerById
                 { st with customers := st.customers ++ [newCustomerOf st p], nextId := st.nextId + 1 }
                 (newCustomerOf st p).id (baseInputOf p)).metafields
               (buildIntakeMfs p (customerGidStr (newCustomerOf st p).id) none none none) },
            200, true, none, ["sfCustomerCreate", "customerUpdate"] ++ ["metafieldsSet"]⟩ :=
        (intakeUpsert_create st p he hp hf hpw').trans
          (intakeAfterCustomer_noUp _ p (newCustomerOf st p).id _ h1 h2 h3)
      have hsecond := intakeUpsert_second_run
        { st with customers := st.customers ++ [newCustomerOf st p], nextId := st.nextId + 1 }
        p (newCustomerOf st p).id h1 h2 h3 he hp
        (Or.inr ⟨newCustomerOf st p, findCustomer_after_create st p hf, rfl⟩)
        ⟨newCustomerOf st p, List.mem_append.mpr (Or.inr (List.mem_singleton.mpr rfl)), rfl⟩
      have hstate := congrArg IntakeResult.state hsecond
      have hstatus := congrArg IntakeResult.status hsecond
      have hok2 := congrArg IntakeResult.ok hsecond
      refine ⟨?_, ?_, ?_, ?_⟩
      · rw [hrun1]
        exact hstate
      · rw [hrun1]
        exact hstatus
      · rw [hrun1]
        exact hok2
      · intro _
        obtain ⟨res, hres⟩ := find?_mapped_some
          ({ st with customers := st.customers ++ [newCustomerOf st p], nextId := st.nextId + 1 } : ShopState).customers
          (baseInputOf p) (newCustomerOf st p).id
          ⟨newCustomerOf st p, List.mem_append.mpr (Or.inr (List.mem_singleton.mpr rfl)), rfl⟩
        refine ⟨res, ?_⟩
        rw [hrun1]
        exact hres

/-- C4 witness: the intake payload for the existing customer with no
data-URLs; the second run changes nothing. -/
theorem upsert_idempotent_without_uploads_witness :
    fxIntakeNoUp.signature_data_url = none ∧
    fxIntakeNoUp.license_data_url = none ∧
    fxIntakeNoUp.insurance_card_data_url = none ∧
    (intakeUpsert (intakeUpsert fxShop fxIntakeNoUp).state fxIntakeNoUp).state =
      (intakeUpsert fxShop fxIntakeNoUp).state ∧
    (intakeUpsert fxShop fxIntakeNoUp).ok = true :=
  ⟨rfl, rfl, rfl,
    (upsert_idempotent_without_uploads fxShop fxIntakeNoUp rfl rfl rfl).1,
    by decide⟩

/-- C4 counterexample to the unqualified reading: with a signature
data-URL present, a second identical submission uploads a fresh file
(fileCreate mints a new id every time), so the file list grows and the
`signature` file-reference metafield now points at the new file id — the
final remote state is NOT the same as after one submission. -/
theorem upsert_twice_not_stateless_counterexample :
    (intakeUpsert (intakeUpsert fxShop fxIntakeUp).state fxIntakeUp).state.files ≠
      (intakeUpsert fxShop fxIntakeUp).state.files ∧
    (intakeUpsert (intakeUpsert fxShop fxIntakeUp).state fxIntakeUp).state.metafields
        (customerGidStr 1) "retainer" "signature" ≠
      (intakeUpsert fxShop fxIntakeUp).state.metafields
        (customerGidStr 1) "retainer" "signature" := by
  decide
